import Mathlib

/-!
Verification of the aester-dex trading-signal core against its specification.

The TypeScript sources are shallowly embedded in Lean: every class becomes a
structure, every method a pure function from the structure (and its inputs) to
the updated structure (and its outputs).  JavaScript numbers are modelled by
`ℚ`; integer counters by `ℕ`.  `parseFloat` on the numeric wire strings is
modelled as the identity on the already-parsed rational.  Wall-clock reads
(`Date.now()`) are passed explicitly as a `now` argument; at bar close the
orchestrator is driven with `now = bar.endTime`.  Asynchronous executor calls
are modelled as completing synchronously, following the specification's
serialization requirement (one in-flight executor call, serialized pipeline).
Logging, CSV output, file persistence and the order tracker are external
effects with no influence on the state observed by the claims and are omitted.
-/

namespace AesterDex

/-! ## Data model (src/lib/types.ts) -/

/-- Tick from the feed.  An absent `size` behaves as `0` in the bar builder
(the `if (tick.size)` truthiness test), so `size` is modelled as a plain `ℚ`. -/
structure Tick where
  timestamp : ℚ
  price : ℚ
  size : ℚ
deriving Repr, DecidableEq

/-- SyntheticBar.  The TS field `open` is renamed `openPrice` (`open` is a Lean
keyword); all other field names follow the source. -/
structure SyntheticBar where
  startTime : ℚ
  endTime : ℚ
  openPrice : ℚ
  high : ℚ
  low : ℚ
  close : ℚ
  volume : ℚ
deriving Repr, DecidableEq

/-- Position side, `PositionSide` in types.ts. -/
inductive PosSide where
  | long
  | short
  | flat
deriving Repr, DecidableEq

/-- Direction of a strategy signal (the `type` discriminator of
`StrategySignal`, which is never `flat`). -/
inductive SigType where
  | long
  | short
deriving Repr, DecidableEq

/-- StrategySignal.  The indicator and trend snapshots carried by the source
signal are informational payloads not inspected by any claim; the embedding
keeps the discriminator, reason and system tag. -/
structure StrategySignal where
  type : SigType
  reason : String
  system : Option String
deriving Repr, DecidableEq

/-! ## EMA (src/lib/indicators/ema.ts) -/

structure EMA where
  smoothing : ℚ
  length : ℕ
  initialized : Bool
  current : ℚ
deriving Repr, DecidableEq

/-- Constructor `new EMA(length)`; the TS constructor throws for
`length ≤ 0`, which callers rule out. -/
def EMA.new (length : ℕ) : EMA :=
  { smoothing := 2 / ((length : ℚ) + 1), length := length
    initialized := false, current := 0 }

def EMA.update (e : EMA) (value : ℚ) : EMA × ℚ :=
  if e.initialized then
    let c := value * e.smoothing + e.current * (1 - e.smoothing)
    ({ e with current := c }, c)
  else
    ({ e with current := value, initialized := true }, value)

/-! ## RSI (src/lib/indicators/rsi.ts) -/

structure RSI where
  avgGain : ℚ
  avgLoss : ℚ
  prevValue : Option ℚ
  length : ℕ
  alpha : ℚ
  ready : Bool
  rsiValue : Option ℚ
  updateCount : ℕ
deriving Repr, DecidableEq

/-- Constructor `new RSI(length)`; the TS constructor throws for
`length < 2`, which callers rule out. -/
def RSI.new (length : ℕ) : RSI :=
  { avgGain := 0, avgLoss := 0, prevValue := none, length := length
    alpha := 1 / (length : ℚ), ready := false, rsiValue := none
    updateCount := 0 }

/-- Average gain and average loss update of `RSI.update`: cumulative simple mean for the
first `length` updates, EWMA with factor `alpha` afterwards. -/
def RSI.smooth (updateCount length : ℕ) (alpha avg x : ℚ) : ℚ :=
  if updateCount ≤ length then
    (avg * ((updateCount : ℚ) - 1) + x) / (updateCount : ℚ)
  else
    avg * (1 - alpha) + x * alpha

/-- Result formula of `RSI.update`, edge cases included. -/
def RSI.result (avgGain avgLoss : ℚ) : ℚ :=
  if avgLoss = 0 then (if avgGain > 0 then 100 else 50)
  else if avgGain = 0 then 0
  else 100 - 100 / (1 + avgGain / avgLoss)

def RSI.update (r : RSI) (value : ℚ) : RSI × ℚ :=
  match r.prevValue with
  | none =>
      ({ r with prevValue := some value, rsiValue := some 50, updateCount := 1 }, 50)
  | some prev =>
      let delta := value - prev
      let gain := max delta 0
      let loss := max (-delta) 0
      let updateCount := r.updateCount + 1
      let avgGain := RSI.smooth updateCount r.length r.alpha r.avgGain gain
      let avgLoss := RSI.smooth updateCount r.length r.alpha r.avgLoss loss
      let ready := r.ready || decide (r.length ≤ updateCount)
      let out := RSI.result avgGain avgLoss
      ({ r with prevValue := some value, updateCount := updateCount
                avgGain := avgGain, avgLoss := avgLoss
                ready := ready, rsiValue := some out }, out)

def RSI.isReady (r : RSI) : Bool := r.ready

def RSI.value (r : RSI) : Option ℚ := r.rsiValue

/-- Feed a list of inputs, collecting the returned values in order. -/
def RSI.run (r : RSI) : List ℚ → RSI × List ℚ
  | [] => (r, [])
  | x :: xs =>
      let (r', v) := r.update x
      let (r'', vs) := r'.run xs
      (r'', v :: vs)

/-! ## ADX (src/lib/indicators/adx.ts) -/

structure ADX where
  length : ℕ
  trValues : List ℚ
  plusDMValues : List ℚ
  minusDMValues : List ℚ
  dxValues : List ℚ
  prevHigh : Option ℚ
  prevLow : Option ℚ
  prevClose : Option ℚ
  prevATR : Option ℚ
  prevPlusDI : Option ℚ
  prevMinusDI : Option ℚ
  adxValue : Option ℚ
  updateCount : ℕ
deriving Repr, DecidableEq

/-- Constructor `new ADX(length)`; the TS constructor throws for
`length < 2`, which callers rule out. -/
def ADX.new (length : ℕ) : ADX :=
  { length := length, trValues := [], plusDMValues := [], minusDMValues := []
    dxValues := [], prevHigh := none, prevLow := none, prevClose := none
    prevATR := none, prevPlusDI := none, prevMinusDI := none
    adxValue := none, updateCount := 0 }

/-- DX buffering and ADX-value computation of `update` (the
`// Calculate ADX` block): on the step with `updateCount = length + 1` the
single DX sample is pushed and the mean is taken only once `length` samples
are buffered; on later steps an already-set ADX value is Wilder-smoothed. -/
def ADX.stepAdx (length updateCount : ℕ) (dxValues : List ℚ)
    (adxValue : Option ℚ) (dx : ℚ) : List ℚ × Option ℚ :=
  if updateCount = length + 1 then
    let dxValues := dxValues ++ [dx]
    if length ≤ dxValues.length then
      (dxValues, some (dxValues.sum / (dxValues.length : ℚ)))
    else (dxValues, adxValue)
  else
    match adxValue with
    | some adx =>
        let alpha := 1 / (length : ℚ)
        (dxValues, some (adx * (1 - alpha) + dx * alpha))
    | none => (dxValues, adxValue)

/-- One `update(high, low, close)` step.  The non-null assertions on
`prevATR`, `prevPlusDI`, `prevMinusDI` in the Wilder branch are modelled with
`Option.getD 0`; in every state where that branch runs the source has set
them on the previous step. -/
def ADX.update (a : ADX) (high low close : ℚ) : ADX × Option ℚ :=
  match a.prevHigh, a.prevLow, a.prevClose with
  | some prevHigh, some prevLow, some prevClose =>
      let updateCount := a.updateCount + 1
      let tr := max (high - low) (max |high - prevClose| |low - prevClose|)
      let plusDM := if high > prevHigh ∧ low > prevLow then max (high - prevHigh) 0 else 0
      let minusDM := if prevHigh > high ∧ prevLow > low then max (prevLow - low) 0 else 0
      let trValues := a.trValues ++ [tr]
      let plusDMValues := a.plusDMValues ++ [plusDM]
      let minusDMValues := a.minusDMValues ++ [minusDM]
      let (trValues, plusDMValues, minusDMValues) :=
        if a.length < trValues.length then
          (trValues.tail, plusDMValues.tail, minusDMValues.tail)
        else (trValues, plusDMValues, minusDMValues)
      if updateCount < a.length + 1 then
        ({ a with updateCount := updateCount, trValues := trValues
                  plusDMValues := plusDMValues, minusDMValues := minusDMValues
                  prevHigh := some high, prevLow := some low
                  prevClose := some close }, none)
      else
        let (atr, plusDI, minusDI) :=
          if updateCount = a.length + 1 then
            let atr := trValues.sum / (a.length : ℚ)
            let avgPlusDM := plusDMValues.sum / (a.length : ℚ)
            let avgMinusDM := minusDMValues.sum / (a.length : ℚ)
            (atr, avgPlusDM / atr * 100, avgMinusDM / atr * 100)
          else
            let alpha := 1 / (a.length : ℚ)
            let atr := a.prevATR.getD 0 * (1 - alpha) + tr * alpha
            let plusDMSmooth :=
              a.prevPlusDI.getD 0 / 100 * a.prevATR.getD 0 * (1 - alpha) + plusDM * alpha
            let minusDMSmooth :=
              a.prevMinusDI.getD 0 / 100 * a.prevATR.getD 0 * (1 - alpha) + minusDM * alpha
            (atr, plusDMSmooth / atr * 100, minusDMSmooth / atr * 100)
        let dx := |plusDI - minusDI| / (plusDI + minusDI) * 100
        let (dxValues, adxValue) := ADX.stepAdx a.length updateCount a.dxValues a.adxValue dx
        ({ a with updateCount := updateCount, trValues := trValues
                  plusDMValues := plusDMValues, minusDMValues := minusDMValues
                  dxValues := dxValues, adxValue := adxValue
                  prevATR := some atr, prevPlusDI := some plusDI
                  prevMinusDI := some minusDI
                  prevHigh := some high, prevLow := some low
                  prevClose := some close }, adxValue)
  | _, _, _ =>
      ({ a with prevHigh := some high, prevLow := some low
                prevClose := some close }, none)

def ADX.value (a : ADX) : Option ℚ := a.adxValue

def ADX.isReady (a : ADX) : Bool := a.adxValue.isSome

def ADX.isTrending (a : ADX) (threshold : ℚ) : Bool :=
  match a.adxValue with
  | some v => decide (v > threshold)
  | none => false

/-- Feed a list of `(high, low, close)` updates. -/
def ADX.run (a : ADX) : List (ℚ × ℚ × ℚ) → ADX
  | [] => a
  | (h, l, c) :: rest => ((a.update h l c).1).run rest

/-! ## Virtual bar builder (src/lib/virtualBarBuilder.ts) -/

structure VirtualBarBuilder where
  timeframeMs : ℚ
  bar : Option SyntheticBar
deriving Repr, DecidableEq

/-- Constructor `new VirtualBarBuilder(timeframeMs)`; the TS constructor
throws for `timeframeMs ≤ 0`. -/
def VirtualBarBuilder.new (timeframeMs : ℚ) : VirtualBarBuilder :=
  { timeframeMs := timeframeMs, bar := none }

def VirtualBarBuilder.createBar (tick : Tick) : SyntheticBar :=
  { startTime := tick.timestamp, endTime := tick.timestamp
    openPrice := tick.price, high := tick.price, low := tick.price
    close := tick.price, volume := tick.size }

/-- `pushTick`: returns the updated builder together with the closed bar, if
this tick closed one. -/
def VirtualBarBuilder.pushTick (vb : VirtualBarBuilder) (tick : Tick) :
    VirtualBarBuilder × Option SyntheticBar :=
  match vb.bar with
  | none => ({ vb with bar := some (createBar tick) }, none)
  | some b =>
      if vb.timeframeMs ≤ tick.timestamp - b.startTime then
        ({ vb with bar := some (createBar tick) }, some b)
      else
        let b' := { b with
          high := max b.high tick.price
          low := min b.low tick.price
          close := tick.price
          volume := if tick.size ≠ 0 then b.volume + tick.size else b.volume
          endTime := tick.timestamp }
        ({ vb with bar := some b' }, none)

/-- Feed a list of ticks, collecting the closed bars in emission order. -/
def VirtualBarBuilder.processTicks (vb : VirtualBarBuilder) :
    List Tick → VirtualBarBuilder × List SyntheticBar
  | [] => (vb, [])
  | t :: ts =>
      let r := vb.pushTick t
      let rest := (r.1).processTicks ts
      (rest.1, r.2.toList ++ rest.2)

/-! ## Peach hybrid engine configuration (src/lib/types.ts) -/

structure PeachV1Config where
  emaFastLen : ℕ
  emaMidLen : ℕ
  emaSlowLen : ℕ
  emaMicroFastLen : ℕ
  emaMicroSlowLen : ℕ
  rsiLength : ℕ
  rsiMinLong : ℚ
  rsiMaxShort : ℚ
  minBarsBetween : ℕ
  minMovePercent : ℚ
deriving Repr, DecidableEq

structure PeachV2Config where
  emaFastLen : ℕ
  emaMidLen : ℕ
  emaSlowLen : ℕ
  rsiMomentumThreshold : ℚ
  volumeLookback : ℕ
  volumeMultiplier : ℚ
  exitVolumeMultiplier : ℚ
deriving Repr, DecidableEq

structure PeachConfig where
  timeframeMs : ℚ
  v1 : PeachV1Config
  v2 : PeachV2Config
deriving Repr, DecidableEq

/-! ## Peach hybrid engine (src/lib/peachHybridEngine.ts) -/

/-- Result of `checkExitConditions`; the diagnostic `details` payload is
omitted. -/
structure ExitCheck where
  shouldExit : Bool
  reason : String
deriving Repr, DecidableEq

structure PeachHybridEngine where
  config : PeachConfig
  v1EmaFast : EMA
  v1EmaMid : EMA
  v1EmaSlow : EMA
  v1EmaMicroFast : EMA
  v1EmaMicroSlow : EMA
  v1Rsi : RSI
  v1LastLongLook : Bool
  v1LastShortLook : Bool
  v1LastLongPrice : ℚ
  v1LastShortPrice : ℚ
  v1BarsSinceLastSignal : ℕ
  v2EmaFast : EMA
  v2EmaMid : EMA
  v2EmaSlow : EMA
  v2Rsi : RSI
  v2RsiHistory : List ℚ
  volumeHistory : List ℚ
  adx : ADX
  position : Option PosSide
deriving Repr, DecidableEq

/-- Constructor `new PeachHybridEngine(config)`.  The V2 RSI length and the
ADX length are hard-coded to 14 in the source. -/
def PeachHybridEngine.new (config : PeachConfig) : PeachHybridEngine :=
  { config := config
    v1EmaFast := EMA.new config.v1.emaFastLen
    v1EmaMid := EMA.new config.v1.emaMidLen
    v1EmaSlow := EMA.new config.v1.emaSlowLen
    v1EmaMicroFast := EMA.new config.v1.emaMicroFastLen
    v1EmaMicroSlow := EMA.new config.v1.emaMicroSlowLen
    v1Rsi := RSI.new config.v1.rsiLength
    v1LastLongLook := false, v1LastShortLook := false
    v1LastLongPrice := 0, v1LastShortPrice := 0
    v1BarsSinceLastSignal := 0
    v2EmaFast := EMA.new config.v2.emaFastLen
    v2EmaMid := EMA.new config.v2.emaMidLen
    v2EmaSlow := EMA.new config.v2.emaSlowLen
    v2Rsi := RSI.new 14
    v2RsiHistory := [], volumeHistory := []
    adx := ADX.new 14
    position := none }

/-- Method `checkV1System`.  The `rsi` argument is `number | null` in the
source (with an early `null` return), though the RSI embedding always returns
a number. -/
def PeachHybridEngine.checkV1System (e : PeachHybridEngine)
    (price emaFast emaMid emaSlow emaMicroFast emaMicroSlow : ℚ)
    (rsi : Option ℚ) : PeachHybridEngine × Option StrategySignal :=
  match rsi with
  | none => (e, none)
  | some rsi =>
      let bullStack := decide (emaFast > emaMid ∧ emaMid > emaSlow)
      let bearStack := decide (emaFast < emaMid ∧ emaMid < emaSlow)
      let microBullStack := decide (emaMicroFast > emaMicroSlow)
      let microBearStack := decide (emaMicroFast < emaMicroSlow)
      let longLook := bullStack && microBullStack && decide (rsi > e.config.v1.rsiMinLong)
      let shortLook := bearStack && microBearStack && decide (rsi < e.config.v1.rsiMaxShort)
      if e.v1BarsSinceLastSignal < e.config.v1.minBarsBetween then (e, none)
      else
        let priceMoveMet := true
        let priceMoveMet :=
          if e.v1LastLongPrice > 0 then
            let movePercent := |(price - e.v1LastLongPrice) / e.v1LastLongPrice| * 100
            decide (movePercent ≥ e.config.v1.minMovePercent)
          else priceMoveMet
        let priceMoveMet :=
          if e.v1LastShortPrice > 0 then
            let movePercent := |(price - e.v1LastShortPrice) / e.v1LastShortPrice| * 100
            priceMoveMet && decide (movePercent ≥ e.config.v1.minMovePercent)
          else priceMoveMet
        if !priceMoveMet then (e, none)
        else
          let longTrig := longLook && !e.v1LastLongLook
          let shortTrig := shortLook && !e.v1LastShortLook
          let e := { e with v1LastLongLook := longLook, v1LastShortLook := shortLook }
          if longTrig then
            ({ e with v1LastLongPrice := price, v1BarsSinceLastSignal := 0 },
             some ⟨.long, "v1-long", some "v1"⟩)
          else if shortTrig then
            ({ e with v1LastShortPrice := price, v1BarsSinceLastSignal := 0 },
             some ⟨.short, "v1-short", some "v1"⟩)
          else (e, none)

/-- Method `checkV2System` (read-only: it mutates no engine state). -/
def PeachHybridEngine.checkV2System (e : PeachHybridEngine)
    (_price emaFast emaMid emaSlow : ℚ) (rsi : Option ℚ)
    (volume barOpen barClose : ℚ) : Option StrategySignal :=
  match rsi with
  | none => none
  | some _rsi =>
      if e.v2RsiHistory.length < 2 then none
      else
        let rsiMomentum := (e.v2RsiHistory.getLast?.getD 0) - (e.v2RsiHistory.headD 0)
        let rsiSurge := decide (|rsiMomentum| ≥ e.config.v2.rsiMomentumThreshold)
        let avgVolume := e.volumeHistory.sum / (e.volumeHistory.length : ℚ)
        let volumeSpike := decide (volume ≥ avgVolume * e.config.v2.volumeMultiplier)
        let volumeColor := decide (barClose > barOpen)
        let emaBullish := decide (emaFast > emaMid ∧ emaMid > emaSlow)
        let emaBearish := decide (emaFast < emaMid ∧ emaMid < emaSlow)
        if rsiSurge && decide (rsiMomentum > 0) && volumeSpike && volumeColor && emaBullish then
          some ⟨.long, "v2-long", some "v2"⟩
        else if rsiSurge && decide (rsiMomentum < 0) && volumeSpike && !volumeColor && emaBearish then
          some ⟨.short, "v2-short", some "v2"⟩
        else none

/-- Method `update(bar)`.  The V2 RSI result is pushed into `v2RsiHistory`
unconditionally because `RSI.update` always returns a number (the source's
`v2Rsi !== null` test never fails); the history is then capped at 2 entries. -/
def PeachHybridEngine.update (e : PeachHybridEngine) (bar : SyntheticBar) :
    PeachHybridEngine × Option StrategySignal :=
  let closePrice := bar.close
  let volume := bar.volume
  let v1EmaFastR := e.v1EmaFast.update closePrice
  let v1EmaMidR := e.v1EmaMid.update closePrice
  let v1EmaSlowR := e.v1EmaSlow.update closePrice
  let v1EmaMicroFastR := e.v1EmaMicroFast.update closePrice
  let v1EmaMicroSlowR := e.v1EmaMicroSlow.update closePrice
  let v1RsiR := e.v1Rsi.update closePrice
  let v2EmaFastR := e.v2EmaFast.update closePrice
  let v2EmaMidR := e.v2EmaMid.update closePrice
  let v2EmaSlowR := e.v2EmaSlow.update closePrice
  let v2RsiR := e.v2Rsi.update closePrice
  let adxR := e.adx.update bar.high bar.low closePrice
  let v2RsiHistory := e.v2RsiHistory ++ [v2RsiR.2]
  let v2RsiHistory := if 2 < v2RsiHistory.length then v2RsiHistory.tail else v2RsiHistory
  let volumeHistory := e.volumeHistory ++ [volume]
  let maxVolumeHistory := max e.config.v2.volumeLookback 10
  let volumeHistory :=
    if maxVolumeHistory < volumeHistory.length then volumeHistory.tail else volumeHistory
  let e := { e with
    v1EmaFast := v1EmaFastR.1, v1EmaMid := v1EmaMidR.1, v1EmaSlow := v1EmaSlowR.1
    v1EmaMicroFast := v1EmaMicroFastR.1, v1EmaMicroSlow := v1EmaMicroSlowR.1
    v1Rsi := v1RsiR.1
    v2EmaFast := v2EmaFastR.1, v2EmaMid := v2EmaMidR.1, v2EmaSlow := v2EmaSlowR.1
    v2Rsi := v2RsiR.1, adx := adxR.1
    v2RsiHistory := v2RsiHistory, volumeHistory := volumeHistory
    v1BarsSinceLastSignal := e.v1BarsSinceLastSignal + 1 }
  let v1R := e.checkV1System closePrice v1EmaFastR.2 v1EmaMidR.2 v1EmaSlowR.2
    v1EmaMicroFastR.2 v1EmaMicroSlowR.2 (some v1RsiR.2)
  let e := v1R.1
  let signal :=
    match v1R.2 with
    | some s => some s
    | none =>
        e.checkV2System closePrice v2EmaFastR.2 v2EmaMidR.2 v2EmaSlowR.2 (some v2RsiR.2)
          volume bar.openPrice bar.close
  (e, signal)

/-- Method `setPosition(side)`. -/
def PeachHybridEngine.setPosition (e : PeachHybridEngine) (side : PosSide) :
    PeachHybridEngine :=
  { e with position := some side }

/-- Method `checkExitConditions(bar)`. -/
def PeachHybridEngine.checkExitConditions (e : PeachHybridEngine)
    (bar : SyntheticBar) : ExitCheck :=
  match e.position with
  | none => ⟨false, ""⟩
  | some side =>
      if side = .flat then ⟨false, ""⟩
      else
        let volume := bar.volume
        let avgVolume :=
          if 0 < e.volumeHistory.length then
            e.volumeHistory.sum / (e.volumeHistory.length : ℚ)
          else volume
        if 3 ≤ e.v2RsiHistory.length then
          let recentRSI := e.v2RsiHistory.drop (e.v2RsiHistory.length - 3)
          let lastRSI := recentRSI.getLast?.getD 0
          let firstRSI := recentRSI.headD 0
          let rsiMomentum := |lastRSI - firstRSI|
          let volumeMultiplier := if avgVolume > 0 then volume / avgVolume else 1
          let rsiFlattening := decide (rsiMomentum < 2)
          let volumeDrop := decide (volumeMultiplier < e.config.v2.exitVolumeMultiplier)
          let adverseRSI :=
            decide ((side = .long ∧ lastRSI < firstRSI) ∨ (side = .short ∧ lastRSI > firstRSI))
          if (rsiFlattening && volumeDrop) || adverseRSI then
            ⟨true, if adverseRSI then "rsi-reversal" else "rsi-flattening-volume-drop"⟩
          else ⟨false, ""⟩
        else ⟨false, ""⟩

/-- Method `shouldAllowTrading(adxThreshold)`. -/
def PeachHybridEngine.shouldAllowTrading (e : PeachHybridEngine)
    (adxThreshold : ℚ) : Bool :=
  !e.adx.isReady || e.adx.isTrending adxThreshold

/-- Events through which the orchestrator drives the engine. -/
inductive EngineEvent where
  | bar (b : SyntheticBar)
  | setPos (side : PosSide)
deriving Repr, DecidableEq

/-- Run the engine over a sequence of events, collecting the signal result of
each `update`. -/
def PeachHybridEngine.runEvents (e : PeachHybridEngine) :
    List EngineEvent → PeachHybridEngine
  | [] => e
  | .bar b :: rest => ((e.update b).1).runEvents rest
  | .setPos side :: rest => (e.setPosition side).runEvents rest

/-- Run the engine over a sequence of bars, collecting the per-bar signals. -/
def PeachHybridEngine.runBars (e : PeachHybridEngine) :
    List SyntheticBar → PeachHybridEngine × List (Option StrategySignal)
  | [] => (e, [])
  | b :: rest =>
      let (e', s) := e.update b
      let (e'', ss) := e'.runBars rest
      (e'', s :: ss)

/-! ## Position state manager (src/lib/state/positionState.ts) -/

structure PendingOrder where
  side : SigType
  size : ℚ
  timestamp : ℚ
deriving Repr, DecidableEq

structure LocalPositionState where
  size : ℚ
  side : PosSide
  avgEntry : ℚ
  unrealizedPnl : ℚ
  lastUpdate : ℚ
  pendingOrder : Option PendingOrder
deriving Repr, DecidableEq

structure PositionStateManager where
  state : LocalPositionState
  reconciliationFailures : ℕ
deriving Repr, DecidableEq

/-- Maximum consecutive reconciliation failures before a trading freeze. -/
def maxReconciliationFailures : ℕ := 2

/-- Initial manager state (`lastUpdate = Date.now()` at construction is
supplied as `now`). -/
def PositionStateManager.new (now : ℚ) : PositionStateManager :=
  { state := { size := 0, side := .flat, avgEntry := 0, unrealizedPnl := 0
               lastUpdate := now, pendingOrder := none }
    reconciliationFailures := 0 }

/-- Normalized position view used by `reconcile`. -/
structure NormalizedPosition where
  size : ℚ
  side : PosSide
  avgEntry : ℚ
  unrealizedPnl : ℚ
deriving Repr, DecidableEq

/-- Private method `reconcile(rest, local)`. -/
def PositionStateManager.reconcile (rest locl : NormalizedPosition) : Bool :=
  let sizeMatch := decide (|rest.size - locl.size| < 1 / 10000)
  let sideMatch := decide (rest.side = locl.side)
  if rest.side = .flat ∧ locl.side = .flat then
    sizeMatch && sideMatch
  else
    let entryMatch :=
      decide (rest.avgEntry = 0 ∨ |rest.avgEntry - locl.avgEntry| / rest.avgEntry < 1 / 100)
    sizeMatch && sideMatch && entryMatch

/-- Polled exchange position snapshot after `parseFloat` of the wire strings
(`positionAmt`, `entryPrice`, `unRealizedProfit`); the numeric payloads are
modelled directly. -/
structure RestPositionSnapshot where
  positionAmt : ℚ
  entryPrice : ℚ
  unrealizedProfit : ℚ
deriving Repr, DecidableEq

/-- Method `updateFromRest(restState)`; `now` models `Date.now()`. -/
def PositionStateManager.updateFromRest (m : PositionStateManager)
    (restState : RestPositionSnapshot) (now : ℚ) : PositionStateManager × Bool :=
  let size := restState.positionAmt
  let side : PosSide := if size > 0 then .long else if size < 0 then .short else .flat
  let avgEntry := restState.entryPrice
  let unrealizedPnl := restState.unrealizedProfit
  let restNorm : NormalizedPosition := ⟨|size|, side, avgEntry, unrealizedPnl⟩
  let localNorm : NormalizedPosition :=
    ⟨m.state.size, m.state.side, m.state.avgEntry, m.state.unrealizedPnl⟩
  let overwriteState : LocalPositionState :=
    { m.state with size := restNorm.size, side := restNorm.side,
                   avgEntry := restNorm.avgEntry,
                   unrealizedPnl := restNorm.unrealizedPnl, lastUpdate := now }
  let overwrite : PositionStateManager :=
    { state := overwriteState, reconciliationFailures := 0 }
  if reconcile restNorm localNorm then (overwrite, true)
  else if restNorm.side = .flat ∧ localNorm.side ≠ .flat then (overwrite, true)
  else if restNorm.side ≠ .flat ∧ localNorm.side = .flat then (overwrite, true)
  else ({ m with reconciliationFailures := m.reconciliationFailures + 1 }, false)

/-- Method `updateLocalState(update)` for the exact partial update the
orchestrator's `enterPosition` performs (`side`, `size`, `avgEntry`). -/
def PositionStateManager.updateLocalState (m : PositionStateManager)
    (side : PosSide) (size avgEntry now : ℚ) : PositionStateManager :=
  { m with state := { m.state with side := side, size := size
                                   avgEntry := avgEntry, lastUpdate := now } }

def PositionStateManager.shouldFreezeTrading (m : PositionStateManager) : Bool :=
  decide (maxReconciliationFailures ≤ m.reconciliationFailures)

def PositionStateManager.resetReconciliationFailures (m : PositionStateManager) :
    PositionStateManager :=
  { m with reconciliationFailures := 0 }

def PositionStateManager.clearPendingOrder (m : PositionStateManager) :
    PositionStateManager :=
  { m with state := { m.state with pendingOrder := none } }

def PositionStateManager.setPendingOrder (m : PositionStateManager)
    (order : PendingOrder) : PositionStateManager :=
  { m with state := { m.state with pendingOrder := some order } }

/-! ## Bot orchestrator (src/lib/bot/botRunner.ts)

The orchestrator is modelled for the `peach-hybrid` strategy (the strategy the
claims concern); `isPeachHybrid` is therefore `true` throughout.  The executor
is the dry-run executor, which always succeeds.  Trade statistics, CSV output,
warm-state persistence, the order tracker and all log emission are external
effects with no bearing on the claims and are not part of the state. -/

/-- Risk configuration (types.ts `RiskConfig`).  Optional fields that the
orchestrator tests for JS-truthiness are `Option ℚ`. -/
structure RiskConfig where
  maxPositionSize : ℚ
  maxLeverage : ℚ
  maxFlipsPerHour : ℕ
  stopLossPct : Option ℚ
  takeProfitPct : Option ℚ
  useStopLoss : Bool
  emergencyStopLoss : Option ℚ
  positionSizePct : Option ℚ
  requireTrendingMarket : Bool
  adxThreshold : ℚ
deriving Repr, DecidableEq

structure PositionState where
  side : PosSide
  size : ℚ
  entryPrice : Option ℚ
  openedAt : Option ℚ
deriving Repr, DecidableEq

structure TradeInstruction where
  side : SigType
  size : ℚ
  leverage : ℚ
  price : ℚ
  signalReason : String
  timestamp : ℚ
deriving Repr, DecidableEq

/-- Ghost record of one successful `enterPosition`, used only to observe the
orchestrator: the `barCount` at entry, the `positionOpenedAt` value before the
entry, whether the entry was a flip (it closed an opposite open position),
and the order timestamp. -/
structure EntryEvent where
  barCount : ℕ
  prevOpenedAt : ℕ
  wasFlip : Bool
  timestamp : ℚ
deriving Repr, DecidableEq

def HOUR_MS : ℚ := 60 * 60 * 1000

def WARMUP_BARS : ℕ := 10

def MIN_HOLD_BARS : ℕ := 6

structure BotRunner where
  strategy : PeachConfig
  risk : RiskConfig
  dryRun : Bool
  engine : PeachHybridEngine
  stateMgr : PositionStateManager
  position : PositionState
  flipHistory : List ℚ
  tradingFrozen : Bool
  freezeUntil : ℚ
  processedSignals : List (SigType × ℚ)
  lastBarCloseTime : ℚ
  highestPrice : Option ℚ
  lowestPrice : Option ℚ
  barCount : ℕ
  positionOpenedAt : ℕ
  usdtBalance : ℚ
  entryLog : List EntryEvent
deriving Repr, DecidableEq

/-- Cold-start orchestrator (no warm state on disk). -/
def BotRunner.new (strategy : PeachConfig) (risk : RiskConfig) (dryRun : Bool) :
    BotRunner :=
  { strategy := strategy, risk := risk, dryRun := dryRun
    engine := PeachHybridEngine.new strategy
    stateMgr := PositionStateManager.new 0
    position := ⟨.flat, 0, none, none⟩
    flipHistory := [], tradingFrozen := false, freezeUntil := 0
    processedSignals := [], lastBarCloseTime := 0
    highestPrice := none, lowestPrice := none
    barCount := 0, positionOpenedAt := 0
    usdtBalance := 0, entryLog := [] }

/-- Core of `canFlip`: the window filter and the budget decision on a raw flip
history. -/
def canFlipCore (maxFlipsPerHour : ℕ) (flipHistory : List ℚ) (timestamp : ℚ) :
    List ℚ × Bool :=
  let windowStart := timestamp - HOUR_MS
  let flipHistory := flipHistory.filter (fun t => windowStart ≤ t)
  (flipHistory, decide (flipHistory.length < maxFlipsPerHour))

/-- Method `canFlip(timestamp)`: filters the stored flip history in place and
returns whether the budget allows another entry. -/
def BotRunner.canFlip (s : BotRunner) (timestamp : ℚ) : BotRunner × Bool :=
  let (flipHistory, ok) := canFlipCore s.risk.maxFlipsPerHour s.flipHistory timestamp
  ({ s with flipHistory := flipHistory }, ok)

/-- Method `recordFlip(timestamp)`. -/
def BotRunner.recordFlip (s : BotRunner) (timestamp : ℚ) : BotRunner :=
  { s with flipHistory := s.flipHistory ++ [timestamp] }

/-- Method `closePosition(reason, meta)`.  The executor call, trade-statistics
finalization and CSV append are external effects; the state effects are:
inform the engine, reset trailing extrema, flatten the position. -/
def BotRunner.closePosition (s : BotRunner) (_reason : String) : BotRunner :=
  if s.position.side = .flat then s
  else
    { s with engine := s.engine.setPosition .flat
             highestPrice := none, lowestPrice := none
             position := ⟨.flat, 0, none, none⟩ }

def sigToPos : SigType → PosSide
  | .long => .long
  | .short => .short

/-- Method `enterPosition(side, order)`.  The balance check is skipped in
dry-run mode; the dry-run executor always succeeds.  `wasFlip` is a ghost
argument recording whether the caller closed an opposite position first. -/
def BotRunner.enterPosition (s : BotRunner) (side : SigType)
    (order : TradeInstruction) (wasFlip : Bool) : BotRunner :=
  let requiredMargin := order.size / order.leverage
  if ¬s.dryRun ∧ s.usdtBalance < requiredMargin then s
  else
    let stateMgr := s.stateMgr.setPendingOrder ⟨side, order.size, order.timestamp⟩
    let stateMgr := stateMgr.updateLocalState (sigToPos side) order.size order.price
      order.timestamp
    let entry : EntryEvent := ⟨s.barCount, s.positionOpenedAt, wasFlip, order.timestamp⟩
    let s := { s with
      stateMgr := stateMgr
      position := ⟨sigToPos side, order.size, some order.price, some order.timestamp⟩
      positionOpenedAt := s.barCount
      highestPrice := if side = SigType.long then some order.price else none
      lowestPrice := if side = SigType.short then some order.price else none
      engine := s.engine.setPosition (sigToPos side)
      entryLog := s.entryLog ++ [entry] }
    s.recordFlip order.timestamp

/-- Method `applySignal(signal, bar)`. -/
def BotRunner.applySignal (s : BotRunner) (signal : StrategySignal)
    (bar : SyntheticBar) : BotRunner :=
  if s.risk.requireTrendingMarket ∧
      ¬(s.engine.shouldAllowTrading s.risk.adxThreshold = true) then s
  else
    let timestamp := bar.endTime
    let size :=
      match s.risk.positionSizePct with
      | some pct =>
          if pct > 0 then
            let availableForPosition := s.usdtBalance * (pct / 100) * (7 / 10)
            let size := min (availableForPosition * s.risk.maxLeverage) s.risk.maxPositionSize
            let size := max size 5
            min size 500
          else s.risk.maxPositionSize
      | none => s.risk.maxPositionSize
    let order : TradeInstruction :=
      ⟨signal.type, size, s.risk.maxLeverage, bar.close, signal.reason, timestamp⟩
    match signal.type with
    | .long =>
        if s.position.side = .long then s
        else
          let (s, ok) := s.canFlip timestamp
          if ¬ok then s
          else if s.position.side = .short then
            let barsHeld := s.barCount - s.positionOpenedAt
            if barsHeld < MIN_HOLD_BARS then s
            else (s.closePosition "flip-long").enterPosition .long order true
          else s.enterPosition .long order false
    | .short =>
        if s.position.side = .short then s
        else
          let (s, ok) := s.canFlip timestamp
          if ¬ok then s
          else if s.position.side = .long then
            let barsHeld := s.barCount - s.positionOpenedAt
            if barsHeld < MIN_HOLD_BARS then s
            else (s.closePosition "flip-short").enterPosition .short order true
          else s.enterPosition .short order false

/-- Trailing-extremum bookkeeping at the head of `evaluateProtectiveExits`:
track the highest (long) / lowest (short) close seen while in the position. -/
def BotRunner.updateExtrema (s : BotRunner) (close : ℚ) : BotRunner :=
  if s.position.side = .long then
    match s.highestPrice with
    | none => { s with highestPrice := some close }
    | some h => if close > h then { s with highestPrice := some close } else s
  else if s.position.side = .short then
    match s.lowestPrice with
    | none => { s with lowestPrice := some close }
    | some l => if close < l then { s with lowestPrice := some close } else s
  else s

/-- Trailing stop decision (activates only above 0.5 % unrealized profit);
`isPeachHybrid` is `true` in this model, so the trailing stop is active. -/
def BotRunner.trailingExitNow (s : BotRunner) (entryPrice close : ℚ) : Bool :=
  let trailingStopPct : ℚ := 1 / 2
  if s.position.side = .long then
    match s.highestPrice with
    | some h =>
        let currentProfit := (close - entryPrice) / entryPrice * 100
        if currentProfit > 1 / 2 then
          decide (close ≤ h * (1 - trailingStopPct / 100))
        else false
    | none => false
  else if s.position.side = .short then
    match s.lowestPrice with
    | some l =>
        let currentProfit := (entryPrice - close) / entryPrice * 100
        if currentProfit > 1 / 2 then
          decide (close ≥ l * (1 + trailingStopPct / 100))
        else false
    | none => false
  else false

/-- Emergency stop decision (always active for peach-hybrid). -/
def BotRunner.emergencyExitNow (s : BotRunner) (entryPrice close : ℚ) : Bool :=
  match s.risk.emergencyStopLoss with
  | some esl =>
      if esl > 0 then
        let threshold :=
          if s.position.side = .long then entryPrice * (1 - esl / 100)
          else entryPrice * (1 + esl / 100)
        decide ((s.position.side = .long ∧ close ≤ threshold) ∨
                (s.position.side = .short ∧ close ≥ threshold))
      else false
  | none => false

/-- Regular stop-loss decision. -/
def BotRunner.stopExitNow (s : BotRunner) (entryPrice close : ℚ) : Bool :=
  match s.risk.stopLossPct with
  | some slp =>
      if slp > 0 ∧ s.risk.useStopLoss = true then
        let threshold :=
          if s.position.side = .long then entryPrice * (1 - slp / 100)
          else entryPrice * (1 + slp / 100)
        decide ((s.position.side = .long ∧ close ≤ threshold) ∨
                (s.position.side = .short ∧ close ≥ threshold))
      else false
  | none => false

/-- Take-profit decision. -/
def BotRunner.takeProfitExitNow (s : BotRunner) (entryPrice close : ℚ) : Bool :=
  match s.risk.takeProfitPct with
  | some tp =>
      if tp > 0 then
        let target :=
          if s.position.side = .long then entryPrice * (1 + tp / 100)
          else entryPrice * (1 - tp / 100)
        decide ((s.position.side = .long ∧ close ≥ target) ∨
                (s.position.side = .short ∧ close ≤ target))
      else false
  | none => false

/-- Method `evaluateProtectiveExits(bar)`: the extremum update followed by the
four exit checks in source order (trailing, emergency, stop-loss,
take-profit). -/
def BotRunner.evaluateProtectiveExits (s : BotRunner) (bar : SyntheticBar) :
    BotRunner :=
  if s.position.side = .flat then s
  else
    match s.position.entryPrice with
    | none => s
    | some entryPrice =>
    if entryPrice = 0 then s
    else
      let close := bar.close
      let s := s.updateExtrema close
      if s.trailingExitNow entryPrice close then s.closePosition "trailing-stop"
      else if s.emergencyExitNow entryPrice close then
        s.closePosition "emergency-stop"
      else if s.stopExitNow entryPrice close then s.closePosition "stop-loss"
      else if s.takeProfitExitNow entryPrice close then
        s.closePosition "take-profit"
      else s

/-- Tail of `handleBarClose` after the monotonic, warmup and freeze gates:
exit-first check, engine update, signal dedup, `applySignal`. -/
def BotRunner.handleBarCloseCore (s : BotRunner) (bar : SyntheticBar) : BotRunner :=
  if s.position.side ≠ .flat ∧ (s.engine.checkExitConditions bar).shouldExit = true
  then s.closePosition (s.engine.checkExitConditions bar).reason
  else
    let r := s.engine.update bar
    let s := { s with engine := r.1 }
    match r.2 with
    | none => s
    | some sig =>
        let signalKey : SigType × ℚ := (sig.type, bar.endTime)
        if signalKey ∈ s.processedSignals then s
        else
          let processed := s.processedSignals ++ [signalKey]
          let processed := if 100 < processed.length then processed.tail else processed
          ({ s with processedSignals := processed }).applySignal sig bar

/-- Method `handleBarClose(bar)`; `now` models the `Date.now()` read in the
freeze gate. -/
def BotRunner.handleBarClose (s : BotRunner) (bar : SyntheticBar) (now : ℚ) :
    BotRunner :=
  if bar.endTime ≤ s.lastBarCloseTime then s
  else
    let s := { s with lastBarCloseTime := bar.endTime, barCount := s.barCount + 1 }
    if s.barCount ≤ WARMUP_BARS then s
    else if s.tradingFrozen then
      if now < s.freezeUntil then s
      else ({ s with tradingFrozen := false }).handleBarCloseCore bar
    else s.handleBarCloseCore bar

/-- Closed-bar handler of `handleTick`: protective exits run first, then
`handleBarClose`.  The wall clock is modelled as the bar's close time. -/
def BotRunner.onClosedBar (s : BotRunner) (bar : SyntheticBar) : BotRunner :=
  (s.evaluateProtectiveExits bar).handleBarClose bar bar.endTime

/-- Drive the orchestrator over a stream of closed bars. -/
def BotRunner.runBars (s : BotRunner) (bars : List SyntheticBar) : BotRunner :=
  bars.foldl BotRunner.onClosedBar s

/-- REST position-snapshot handler registered in `startRestPolling`.  The
order-tracker confirmation on a non-flat reconciled snapshot is external
bookkeeping; the state effects are: reconcile, freeze bookkeeping on failure,
pending-order clearing on a flat snapshot, local position refresh. -/
def BotRunner.onRestPosition (s : BotRunner) (rest : RestPositionSnapshot)
    (now : ℚ) : BotRunner :=
  let r := s.stateMgr.updateFromRest rest now
  let reconciled := r.2
  let s := { s with stateMgr := r.1 }
  if ¬(reconciled = true) then
    if s.stateMgr.shouldFreezeTrading then
      { s with tradingFrozen := true, freezeUntil := now + 60000 }
    else s
  else
    let size := rest.positionAmt
    let s :=
      if size ≠ 0 then s
      else { s with stateMgr := s.stateMgr.clearPendingOrder }
    let st := s.stateMgr.state
    { s with position :=
        ⟨st.side, st.size, if st.avgEntry > 0 then some st.avgEntry else none,
         some st.lastUpdate⟩ }

/-! ## ADX initialization invariant

`update` pushes a DX sample into `dxValues` only on the single step where
`updateCount = length + 1`, so `dxValues` never accumulates the `length`
samples required by the initialization guard, and `adxValue` stays `none`. -/

/-- Invariant of every reachable ADX state with `length ≥ 2`: the ADX value is
unset and at most one DX sample has been buffered (only at or after step
`length + 1`). -/
def ADX.NeverSet (a : ADX) : Prop :=
  a.adxValue = none ∧ 2 ≤ a.length ∧
    (a.dxValues = [] ∨ (a.dxValues.length = 1 ∧ a.length + 1 ≤ a.updateCount))

theorem ADX.NeverSet.adxNew (length : ℕ) (hlen : 2 ≤ length) :
    (ADX.new length).NeverSet :=
  ⟨rfl, hlen, Or.inl rfl⟩

/-- `stepAdx` keeps the ADX value unset when called from a state satisfying
the buffering invariant at count `uc`, with the step's count `uc + 1`. -/
theorem ADX.stepAdx_never (length uc : ℕ) (dxValues : List ℚ) (dx : ℚ)
    (hlen : 2 ≤ length)
    (hdx : dxValues = [] ∨ (dxValues.length = 1 ∧ length + 1 ≤ uc)) :
    (ADX.stepAdx length (uc + 1) dxValues none dx).2 = none ∧
      ((ADX.stepAdx length (uc + 1) dxValues none dx).1 = [] ∨
        ((ADX.stepAdx length (uc + 1) dxValues none dx).1.length = 1 ∧
          length + 1 ≤ uc + 1)) := by
  unfold ADX.stepAdx
  split
  · rename_i heq
    rcases hdx with h0 | ⟨h1, h2⟩
    · subst h0
      have hguard : ¬ length ≤ (([] : List ℚ) ++ [dx]).length := by
        simp
        omega
      simp only [hguard, if_false]
      exact ⟨trivial, Or.inr ⟨by simp, by omega⟩⟩
    · exact absurd heq (by omega)
  · exact ⟨rfl, by
      rcases hdx with h0 | ⟨h1, h2⟩
      · exact Or.inl h0
      · exact Or.inr ⟨h1, h2.trans (Nat.le_succ _)⟩⟩

theorem ADX.NeverSet.adxUpdate {a : ADX} (h : a.NeverSet) (high low close : ℚ) :
    ((a.update high low close).1).NeverSet := by
  obtain ⟨hval, hlen, hdx⟩ := h
  unfold ADX.update
  cases hh : a.prevHigh with
  | none => exact ⟨hval, hlen, hdx⟩
  | some ph =>
  cases hl : a.prevLow with
  | none => exact ⟨hval, hlen, hdx⟩
  | some pl =>
  cases hc : a.prevClose with
  | none => exact ⟨hval, hlen, hdx⟩
  | some pc =>
  simp only [hval]
  split
  · -- warmup branch: updateCount < length + 1
    refine ⟨rfl, hlen, ?_⟩
    rcases hdx with h0 | ⟨h1, h2⟩
    · exact Or.inl h0
    · exact Or.inr ⟨h1, h2.trans (Nat.le_succ _)⟩
  · -- `stepAdx` decides the new `dxValues`/`adxValue`
    exact ⟨(ADX.stepAdx_never a.length a.updateCount a.dxValues _ hlen hdx).1, hlen,
           (ADX.stepAdx_never a.length a.updateCount a.dxValues _ hlen hdx).2⟩

theorem ADX.NeverSet.adxRun {a : ADX} (h : a.NeverSet)
    (updates : List (ℚ × ℚ × ℚ)) : (a.run updates).NeverSet := by
  induction updates generalizing a with
  | nil => exact h
  | cons u rest ih =>
      obtain ⟨uh, ul, uc⟩ := u
      exact ih (h.adxUpdate uh ul uc)

/-! ## Engine-level invariants -/

/-- `checkV1System` touches only the V1 edge-tracking fields: the ADX, the V2
RSI history, the volume history, the position and the configuration are
unchanged. -/
theorem PeachHybridEngine.checkV1System_preserves (e : PeachHybridEngine)
    (price emaFast emaMid emaSlow emaMicroFast emaMicroSlow : ℚ)
    (rsi : Option ℚ) :
    ((e.checkV1System price emaFast emaMid emaSlow emaMicroFast emaMicroSlow rsi).1).adx
        = e.adx ∧
      ((e.checkV1System price emaFast emaMid emaSlow emaMicroFast emaMicroSlow rsi).1).v2RsiHistory
        = e.v2RsiHistory ∧
      ((e.checkV1System price emaFast emaMid emaSlow emaMicroFast emaMicroSlow rsi).1).volumeHistory
        = e.volumeHistory ∧
      ((e.checkV1System price emaFast emaMid emaSlow emaMicroFast emaMicroSlow rsi).1).position
        = e.position ∧
      ((e.checkV1System price emaFast emaMid emaSlow emaMicroFast emaMicroSlow rsi).1).config
        = e.config := by
  cases rsi with
  | none => exact ⟨rfl, rfl, rfl, rfl, rfl⟩
  | some r =>
      simp only [PeachHybridEngine.checkV1System]
      repeat' split
      all_goals exact ⟨rfl, rfl, rfl, rfl, rfl⟩

/-- Projections of one engine `update` step: the ADX stream is exactly the
ADX indicator fed with the bar, the position and configuration are untouched,
and the V2 RSI history is the pushed-and-capped list. -/
theorem PeachHybridEngine.update_proj (e : PeachHybridEngine) (bar : SyntheticBar) :
    ((e.update bar).1).adx = (e.adx.update bar.high bar.low bar.close).1 ∧
      ((e.update bar).1).position = e.position ∧
      ((e.update bar).1).config = e.config ∧
      ((e.update bar).1).v2RsiHistory =
        (if 2 < (e.v2RsiHistory ++ [(e.v2Rsi.update bar.close).2]).length then
          (e.v2RsiHistory ++ [(e.v2Rsi.update bar.close).2]).tail
         else e.v2RsiHistory ++ [(e.v2Rsi.update bar.close).2]) := by
  obtain ⟨h1, h2, h3, h4, h5⟩ := PeachHybridEngine.checkV1System_preserves
    { e with
      v1EmaFast := (e.v1EmaFast.update bar.close).1
      v1EmaMid := (e.v1EmaMid.update bar.close).1
      v1EmaSlow := (e.v1EmaSlow.update bar.close).1
      v1EmaMicroFast := (e.v1EmaMicroFast.update bar.close).1
      v1EmaMicroSlow := (e.v1EmaMicroSlow.update bar.close).1
      v1Rsi := (e.v1Rsi.update bar.close).1
      v2EmaFast := (e.v2EmaFast.update bar.close).1
      v2EmaMid := (e.v2EmaMid.update bar.close).1
      v2EmaSlow := (e.v2EmaSlow.update bar.close).1
      v2Rsi := (e.v2Rsi.update bar.close).1
      adx := (e.adx.update bar.high bar.low bar.close).1
      v2RsiHistory :=
        (if 2 < (e.v2RsiHistory ++ [(e.v2Rsi.update bar.close).2]).length then
          (e.v2RsiHistory ++ [(e.v2Rsi.update bar.close).2]).tail
         else e.v2RsiHistory ++ [(e.v2Rsi.update bar.close).2])
      volumeHistory :=
        (if max e.config.v2.volumeLookback 10 < (e.volumeHistory ++ [bar.volume]).length then
          (e.volumeHistory ++ [bar.volume]).tail
         else e.volumeHistory ++ [bar.volume])
      v1BarsSinceLastSignal := e.v1BarsSinceLastSignal + 1 }
    bar.close (e.v1EmaFast.update bar.close).2 (e.v1EmaMid.update bar.close).2
    (e.v1EmaSlow.update bar.close).2 (e.v1EmaMicroFast.update bar.close).2
    (e.v1EmaMicroSlow.update bar.close).2 (some (e.v1Rsi.update bar.close).2)
  exact ⟨h1, h4, h5, h2⟩

/-- The V2 RSI history never holds more than two samples: `update` pushes one
value and immediately shifts the buffer back down to length 2. -/
theorem PeachHybridEngine.update_rsiHistory_le (e : PeachHybridEngine)
    (bar : SyntheticBar) (h : e.v2RsiHistory.length ≤ 2) :
    ((e.update bar).1).v2RsiHistory.length ≤ 2 := by
  rw [(PeachHybridEngine.update_proj e bar).2.2.2]
  split <;> rename_i hlen <;> simp_all

/-- Invariant of reachable engine states used by the exit-detector and
regime-gate claims. -/
def PeachHybridEngine.Reach (e : PeachHybridEngine) : Prop :=
  e.v2RsiHistory.length ≤ 2 ∧ e.adx.NeverSet

theorem PeachHybridEngine.Reach.engineNew (config : PeachConfig) :
    (PeachHybridEngine.new config).Reach :=
  ⟨by simp [PeachHybridEngine.new], ADX.NeverSet.adxNew 14 (by omega)⟩

theorem PeachHybridEngine.Reach.engineUpdate {e : PeachHybridEngine} (h : e.Reach)
    (bar : SyntheticBar) : ((e.update bar).1).Reach := by
  refine ⟨PeachHybridEngine.update_rsiHistory_le e bar h.1, ?_⟩
  rw [(PeachHybridEngine.update_proj e bar).1]
  exact h.2.adxUpdate bar.high bar.low bar.close

theorem PeachHybridEngine.Reach.setPosition {e : PeachHybridEngine}
    (h : e.Reach) (side : PosSide) : (e.setPosition side).Reach := h

theorem PeachHybridEngine.Reach.runEvents {e : PeachHybridEngine} (h : e.Reach)
    (events : List EngineEvent) : (e.runEvents events).Reach := by
  induction events generalizing e with
  | nil => exact h
  | cons ev rest ih =>
      cases ev with
      | bar b => exact ih (h.engineUpdate b)
      | setPos side => exact ih (h.setPosition side)

/-- With fewer than three buffered RSI samples the exit detector reports no
exit, whatever the position and the bar. -/
theorem PeachHybridEngine.checkExitConditions_of_short_history
    (e : PeachHybridEngine) (bar : SyntheticBar)
    (h : e.v2RsiHistory.length ≤ 2) :
    e.checkExitConditions bar = ⟨false, ""⟩ := by
  simp only [PeachHybridEngine.checkExitConditions]
  split
  · rfl
  · split
    · rfl
    · split
      · omega
      · rfl

/-! ## Claim theorems C1–C3 -/

/-- C1: contrary to the claim, the hybrid exit detector can never fire.
`update` caps `v2RsiHistory` at two samples while `checkExitConditions`
requires at least three, so in every reachable engine state — any
initial configuration, any interleaving of bar updates and `setPosition`
calls — `checkExitConditions` returns `shouldExit = false` with an empty
reason; the exit rule `(rsiFlattening ∧ volumeDrop) ∨ adverseRSI` and the
S4 scenarios are dead code.  This contradicts the claim's asserted exits
(reasons `rsi-flattening-volume-drop` / `rsi-reversal`), which match the
source's evident intent. -/
theorem C1_exit_detector_never_fires (config : PeachConfig)
    (events : List EngineEvent) (bar : SyntheticBar) :
    ((PeachHybridEngine.new config).runEvents events).checkExitConditions bar
      = ⟨false, ""⟩ :=
  PeachHybridEngine.checkExitConditions_of_short_history _ bar
    ((PeachHybridEngine.Reach.engineNew config).runEvents events).1

/-- C2: contrary to the claim, the ADX value never becomes non-null.  The DX
buffer receives a sample only on the single step with
`updateCount = length + 1`, so it never reaches the `length` samples the
initialization demands: for every length ≥ 2 and every update sequence the
ADX value stays `none` — also once `updateCount ≥ 2·length`. -/
theorem C2_adx_never_initializes (length : ℕ) (hlen : 2 ≤ length)
    (updates : List (ℚ × ℚ × ℚ)) :
    ((ADX.new length).run updates).value = none :=
  ((ADX.NeverSet.adxNew length hlen).adxRun updates).1

/-- C2 witness: an ADX of length 2 driven through five counted updates
(`updateCount = 5 ≥ 2·length = 4`) with strictly trending bars still reports
`none`. -/
theorem C2_adx_never_initializes_witness :
    (2 ≤ 2 ∧
        ((ADX.new 2).run
          [(1, 0, 1), (2, 1, 2), (3, 2, 3), (4, 3, 4), (5, 4, 5), (6, 5, 6)]).updateCount = 5) ∧
      ((ADX.new 2).run
          [(1, 0, 1), (2, 1, 2), (3, 2, 3), (4, 3, 4), (5, 4, 5), (6, 5, 6)]).value = none :=
  ⟨⟨by norm_num, by norm_num [ADX.run, ADX.update, ADX.new, ADX.stepAdx]⟩,
    C2_adx_never_initializes 2 (by norm_num)
      [(1, 0, 1), (2, 1, 2), (3, 2, 3), (4, 3, 4), (5, 4, 5), (6, 5, 6)]⟩

/-- C3: in the hybrid engine as constructed (its ADX has length 14), for every
sequence of bar updates and `setPosition` calls the ADX value stays `none` and
`isReady` stays `false`, so `shouldAllowTrading` returns `true` for every
threshold in every reachable engine state: the `requireTrendingMarket` regime
gate never blocks a signal. -/
theorem C3_regime_gate_never_blocks (config : PeachConfig)
    (events : List EngineEvent) (threshold : ℚ) :
    ((PeachHybridEngine.new config).runEvents events).adx.value = none ∧
      ((PeachHybridEngine.new config).runEvents events).adx.isReady = false ∧
      ((PeachHybridEngine.new config).runEvents events).shouldAllowTrading threshold
        = true := by
  have hnone : ((PeachHybridEngine.new config).runEvents events).adx.adxValue = none :=
    (((PeachHybridEngine.Reach.engineNew config).runEvents events).2).1
  refine ⟨hnone, ?_, ?_⟩
  · simp [ADX.isReady, hnone]
  · simp [PeachHybridEngine.shouldAllowTrading, ADX.isReady, hnone]

/-! ## RSI bounds (C10) -/

/-- Invariant of every reachable RSI state: the running averages are
non-negative, the smoothing factor lies in `[0, 1]`, and any stored value is
within `[0, 100]`. -/
def RSI.Bounded (r : RSI) : Prop :=
  0 ≤ r.avgGain ∧ 0 ≤ r.avgLoss ∧ 0 ≤ r.alpha ∧ r.alpha ≤ 1 ∧
    ∀ v, r.rsiValue = some v → 0 ≤ v ∧ v ≤ 100

theorem RSI.Bounded.rsiNew (length : ℕ) : (RSI.new length).Bounded := by
  refine ⟨le_refl 0, le_refl 0, ?_, ?_, ?_⟩
  · simp only [RSI.new]
    positivity
  · simp only [RSI.new]
    rcases Nat.eq_zero_or_pos length with h | h
    · simp [h]
    · rw [div_le_one (by exact_mod_cast h)]
      exact_mod_cast h
  · intro v hv
    simp [RSI.new] at hv

/-- The smoothing step keeps a non-negative average non-negative (the step
count is the incremented update counter, hence positive). -/
theorem RSI.smooth_nonneg (updateCount length : ℕ) (alpha avg x : ℚ)
    (hcount : 1 ≤ updateCount) (ha0 : 0 ≤ alpha) (ha1 : alpha ≤ 1)
    (havg : 0 ≤ avg) (hx : 0 ≤ x) :
    0 ≤ RSI.smooth updateCount length alpha avg x := by
  unfold RSI.smooth
  split
  · have hc : (0 : ℚ) ≤ (updateCount : ℚ) - 1 := by
      have : (1 : ℚ) ≤ (updateCount : ℚ) := by exact_mod_cast hcount
      linarith
    have hnum : 0 ≤ avg * ((updateCount : ℚ) - 1) + x := by
      have := mul_nonneg havg hc
      linarith
    exact div_nonneg hnum (by positivity)
  · have h1 := mul_nonneg havg (by linarith : (0 : ℚ) ≤ 1 - alpha)
    have h2 := mul_nonneg hx ha0
    linarith

/-- The result formula stays within `[0, 100]` for non-negative averages. -/
theorem RSI.result_bounds (avgGain avgLoss : ℚ) (hg : 0 ≤ avgGain)
    (hl : 0 ≤ avgLoss) :
    0 ≤ RSI.result avgGain avgLoss ∧ RSI.result avgGain avgLoss ≤ 100 := by
  unfold RSI.result
  split
  · split <;> norm_num
  · split
    · norm_num
    · rename_i hl0 hg0
      have hlpos : 0 < avgLoss := lt_of_le_of_ne hl (Ne.symm hl0)
      have hgpos : 0 < avgGain := lt_of_le_of_ne hg (Ne.symm hg0)
      have hrs : 0 < avgGain / avgLoss := div_pos hgpos hlpos
      constructor
      · have h1 : 100 / (1 + avgGain / avgLoss) ≤ 100 :=
          div_le_self (by norm_num) (by linarith)
        linarith
      · have h2 : 0 < 100 / (1 + avgGain / avgLoss) := by positivity
        linarith

theorem RSI.Bounded.rsiUpdate {r : RSI} (h : r.Bounded) (value : ℚ) :
    ((r.update value).1).Bounded ∧ 0 ≤ (r.update value).2 ∧
      (r.update value).2 ≤ 100 := by
  obtain ⟨hg, hl, ha0, ha1, hv⟩ := h
  unfold RSI.update
  cases hp : r.prevValue with
  | none =>
      refine ⟨⟨hg, hl, ha0, ha1, ?_⟩, by norm_num, by norm_num⟩
      intro v hv'
      simp only [Option.some.injEq] at hv'
      subst hv'
      norm_num
  | some prev =>
      have hg' : 0 ≤ RSI.smooth (r.updateCount + 1) r.length r.alpha r.avgGain
          (max (value - prev) 0) :=
        RSI.smooth_nonneg _ _ _ _ _ (by omega) ha0 ha1 hg (le_max_right _ 0)
      have hl' : 0 ≤ RSI.smooth (r.updateCount + 1) r.length r.alpha r.avgLoss
          (max (-(value - prev)) 0) :=
        RSI.smooth_nonneg _ _ _ _ _ (by omega) ha0 ha1 hl (le_max_right _ 0)
      obtain ⟨hout0, hout1⟩ := RSI.result_bounds _ _ hg' hl'
      refine ⟨⟨hg', hl', ha0, ha1, ?_⟩, hout0, hout1⟩
      intro v hv'
      simp only [Option.some.injEq] at hv'
      subst hv'
      exact ⟨hout0, hout1⟩

theorem RSI.Bounded.rsiRun {r : RSI} (h : r.Bounded) (inputs : List ℚ) :
    ((r.run inputs).1).Bounded ∧ ∀ v ∈ (r.run inputs).2, 0 ≤ v ∧ v ≤ 100 := by
  induction inputs generalizing r with
  | nil => exact ⟨h, by simp [RSI.run]⟩
  | cons x xs ih =>
      obtain ⟨hstate, h0, h1⟩ := h.rsiUpdate x
      obtain ⟨hrec, hall⟩ := ih hstate
      refine ⟨hrec, ?_⟩
      intro v hv
      simp only [RSI.run, List.mem_cons] at hv
      rcases hv with rfl | hv
      · exact ⟨h0, h1⟩
      · exact hall v hv

/-- C10: every value returned by `RSI.update` over any input sequence — and
any non-null stored value — lies in `[0, 100]`: the first update returns 50,
`avgLoss = 0` yields 100 (positive average gain) or 50, `avgGain = 0` yields
0, and the general Wilder formula `100 − 100/(1 + avgGain/avgLoss)` stays
inside the interval. -/
theorem C10_rsi_output_bounds (length : ℕ) (_hlen : 2 ≤ length)
    (inputs : List ℚ) :
    (∀ v ∈ ((RSI.new length).run inputs).2, 0 ≤ v ∧ v ≤ 100) ∧
      ∀ v, ((RSI.new length).run inputs).1.rsiValue = some v →
        0 ≤ v ∧ v ≤ 100 := by
  obtain ⟨hstate, hall⟩ := (RSI.Bounded.rsiNew length).rsiRun inputs
  exact ⟨hall, hstate.2.2.2.2⟩

/-- C10 witness: a length-2 RSI fed a gain, a flat stretch and a loss returns
values inside `[0, 100]`. -/
theorem C10_rsi_output_bounds_witness :
    (2 ≤ 2 ∧ ((RSI.new 2).run [100, 103, 103, 99]).2 = [50, 100, 100, 300 / 19]) ∧
      (∀ v ∈ ((RSI.new 2).run [100, 103, 103, 99]).2, 0 ≤ v ∧ v ≤ 100) :=
  ⟨⟨by norm_num, by norm_num [RSI.run, RSI.update, RSI.new, RSI.smooth, RSI.result]⟩,
    (C10_rsi_output_bounds 2 (by norm_num) [100, 103, 103, 99]).1⟩

/-! ## Bar-builder invariants (C9) -/

/-- Well-formedness of a synthetic bar claimed by the specification. -/
def BarInv (b : SyntheticBar) : Prop :=
  b.low ≤ b.openPrice ∧ b.openPrice ≤ b.high ∧ b.low ≤ b.close ∧
    b.close ≤ b.high ∧ 0 ≤ b.volume ∧ b.startTime ≤ b.endTime

theorem VirtualBarBuilder.createBar_inv (t : Tick) (hsz : 0 ≤ t.size) :
    BarInv (VirtualBarBuilder.createBar t) :=
  ⟨le_refl _, le_refl _, le_refl _, le_refl _, hsz, le_refl _⟩

/-- Induction kernel for the bar-builder invariants: for sorted ticks with
non-negative sizes, starting from an open bar (if any) that is well-formed and
closed no later than every remaining tick, every emitted bar is well-formed,
emission order never overlaps, and the first emitted bar inherits the open
bar's start time. -/
theorem VirtualBarBuilder.processTicks_invariants (tf : ℚ) (ticks : List Tick) :
    ∀ st : Option SyntheticBar,
      ticks.Pairwise (fun a b => a.timestamp ≤ b.timestamp) →
      (∀ t ∈ ticks, 0 ≤ t.size) →
      (∀ b, st = some b → BarInv b ∧ ∀ t ∈ ticks, b.endTime ≤ t.timestamp) →
      (∀ x ∈ (VirtualBarBuilder.processTicks ⟨tf, st⟩ ticks).2, BarInv x) ∧
        List.Chain' (fun x y => x.endTime ≤ y.startTime)
          (VirtualBarBuilder.processTicks ⟨tf, st⟩ ticks).2 ∧
        (∀ b f, st = some b →
          ((VirtualBarBuilder.processTicks ⟨tf, st⟩ ticks).2).head? = some f →
          f.startTime = b.startTime) := by
  induction ticks with
  | nil =>
      intro st _ _ _
      refine ⟨?_, ?_, ?_⟩
      · intro x hx
        simp [VirtualBarBuilder.processTicks] at hx
      · simp [VirtualBarBuilder.processTicks]
      · intro b f _ hf
        simp [VirtualBarBuilder.processTicks] at hf
  | cons t ts ih =>
      intro st hpw hsz hst
      have hpw' := (List.pairwise_cons.mp hpw).2
      have hle' := (List.pairwise_cons.mp hpw).1
      have hsz' : ∀ u ∈ ts, 0 ≤ u.size := fun u hu => hsz u (List.mem_cons_of_mem t hu)
      have hszt : 0 ≤ t.size := hsz t (List.mem_cons_self t ts)
      cases st with
      | none =>
          have hrec := ih (some (VirtualBarBuilder.createBar t)) hpw' hsz'
            (by
              intro b hb
              simp only [Option.some.injEq] at hb
              subst hb
              exact ⟨VirtualBarBuilder.createBar_inv t hszt, fun u hu => hle' u hu⟩)
          obtain ⟨r1, r2, _⟩ := hrec
          simp only [VirtualBarBuilder.processTicks, VirtualBarBuilder.pushTick,
            Option.toList_none, List.nil_append]
          exact ⟨r1, r2, by intro b f hb; exact absurd hb (by simp)⟩
      | some b =>
          obtain ⟨hbinv, hble⟩ := hst b rfl
          have hblet : b.endTime ≤ t.timestamp := hble t (List.mem_cons_self t ts)
          simp only [VirtualBarBuilder.processTicks, VirtualBarBuilder.pushTick]
          split
          · -- the tick closes the open bar and starts the next one
            have hrec := ih (some (VirtualBarBuilder.createBar t)) hpw' hsz'
              (by
                intro c hc
                simp only [Option.some.injEq] at hc
                subst hc
                exact ⟨VirtualBarBuilder.createBar_inv t hszt, fun u hu => hle' u hu⟩)
            obtain ⟨r1, r2, r3⟩ := hrec
            simp only [Option.toList_some, List.cons_append, List.nil_append]
            refine ⟨?_, ?_, ?_⟩
            · intro x hx
              rcases List.mem_cons.mp hx with rfl | hx
              · exact hbinv
              · exact r1 x hx
            · rw [List.chain'_cons']
              refine ⟨?_, r2⟩
              intro f hf
              have := r3 (VirtualBarBuilder.createBar t) f rfl hf
              rw [this]
              exact hblet
            · intro c f hc hf
              simp only [Option.some.injEq] at hc
              subst hc
              simp only [List.head?_cons, Option.some.injEq] at hf
              subst hf
              rfl
          · -- the tick updates the open bar in place
            have hrec := ih (some { b with
                high := max b.high t.price
                low := min b.low t.price
                close := t.price
                volume := if t.size ≠ 0 then b.volume + t.size else b.volume
                endTime := t.timestamp }) hpw' hsz'
              (by
                intro c hc
                simp only [Option.some.injEq] at hc
                subst hc
                refine ⟨⟨?_, ?_, ?_, ?_, ?_, ?_⟩, fun u hu => hle' u hu⟩
                · exact le_trans (min_le_left _ _) hbinv.1
                · exact le_trans hbinv.2.1 (le_max_left _ _)
                · exact min_le_right _ _
                · exact le_max_right _ _
                · split
                  · show (0 : ℚ) ≤ b.volume + t.size
                    linarith [hbinv.2.2.2.2.1, hszt]
                  · show (0 : ℚ) ≤ b.volume
                    exact hbinv.2.2.2.2.1
                · exact le_trans (le_trans hbinv.2.2.2.2.2 hblet) (le_refl _))
            obtain ⟨r1, r2, r3⟩ := hrec
            simp only [Option.toList_none, List.nil_append]
            refine ⟨r1, r2, ?_⟩
            intro c f hc hf
            simp only [Option.some.injEq] at hc
            subst hc
            have hr := r3 _ f rfl hf
            exact hr

/-- C9: for every tick stream with non-decreasing timestamps, non-negative
sizes and positive prices, every bar the builder emits satisfies
`low ≤ open ≤ high`, `low ≤ close ≤ high`, `volume ≥ 0` and
`startTime ≤ endTime`, and consecutive emitted bars never overlap:
`b2.startTime ≥ b1.endTime`. -/
theorem C9_bar_builder_invariants (tf : ℚ) (ticks : List Tick)
    (_htf : 0 < tf)
    (hmono : ticks.Pairwise (fun a b => a.timestamp ≤ b.timestamp))
    (hsize : ∀ t ∈ ticks, 0 ≤ t.size)
    (_hprice : ∀ t ∈ ticks, 0 < t.price) :
    (∀ b ∈ ((VirtualBarBuilder.new tf).processTicks ticks).2, BarInv b) ∧
      List.Chain' (fun b1 b2 => b1.endTime ≤ b2.startTime)
        ((VirtualBarBuilder.new tf).processTicks ticks).2 := by
  have h := VirtualBarBuilder.processTicks_invariants tf ticks none hmono hsize
    (by intro b hb; exact absurd hb (by simp))
  exact ⟨h.1, h.2.1⟩

/-- C9 witness: three ticks at 30-second spacing emit one well-formed bar. -/
theorem C9_bar_builder_invariants_witness :
    (((VirtualBarBuilder.new 30000).processTicks
        [⟨0, 100, 1⟩, ⟨10000, 99, 2⟩, ⟨30000, 101, 1⟩]).2 =
      [⟨0, 10000, 100, 100, 99, 99, 3⟩]) ∧
      ((∀ b ∈ ((VirtualBarBuilder.new 30000).processTicks
          [⟨0, 100, 1⟩, ⟨10000, 99, 2⟩, ⟨30000, 101, 1⟩]).2, BarInv b) ∧
        List.Chain' (fun b1 b2 => b1.endTime ≤ b2.startTime)
          ((VirtualBarBuilder.new 30000).processTicks
            [⟨0, 100, 1⟩, ⟨10000, 99, 2⟩, ⟨30000, 101, 1⟩]).2) := by
  constructor
  · norm_num [VirtualBarBuilder.processTicks, VirtualBarBuilder.pushTick,
      VirtualBarBuilder.new, VirtualBarBuilder.createBar]
  · exact C9_bar_builder_invariants 30000 _ (by norm_num)
      (by norm_num [List.pairwise_cons])
      (by
        intro u hu
        simp only [List.mem_cons, List.not_mem_nil, or_false] at hu
        rcases hu with rfl | rfl | rfl <;> norm_num)
      (by
        intro u hu
        simp only [List.mem_cons, List.not_mem_nil, or_false] at hu
        rcases hu with rfl | rfl | rfl <;> norm_num)

/-! ## Hybrid V1 min-move scenario (C4)

The S2 scenario of the specification.  The indicator lengths are chosen so
that a rising close makes `longLook` hold from the second bar on (EMA lengths
1/2/3 and micro pair 1/2 give an immediate bull stack, an RSI of length 2 on
rising closes reports 100); `minMovePercent = 0.10` and `minBarsBetween = 1`
are the claim's values. -/

def peachS2Config : PeachConfig :=
  { timeframeMs := 30000
    v1 := { emaFastLen := 1, emaMidLen := 2, emaSlowLen := 3
            emaMicroFastLen := 1, emaMicroSlowLen := 2
            rsiLength := 2, rsiMinLong := 50, rsiMaxShort := 0
            minBarsBetween := 1, minMovePercent := 1 / 10 }
    v2 := { emaFastLen := 1, emaMidLen := 2, emaSlowLen := 3
            rsiMomentumThreshold := 1000, volumeLookback := 4
            volumeMultiplier := 1000, exitVolumeMultiplier := 6 / 5 } }

/-- Flat OHLC bar used by the concrete scenarios. -/
def flatBar (i : ℕ) (close : ℚ) : SyntheticBar :=
  { startTime := 30000 * i, endTime := 30000 * (i + 1)
    openPrice := close, high := close, low := close, close := close
    volume := 10 }

/-- S2 bar closes: a V1 long fires at 100.00; 100.05 is a 0.05 % move and
100.15 a 0.15 % move from the stamped entry price. -/
def peachS2Bars : List SyntheticBar :=
  [flatBar 0 90, flatBar 1 100, flatBar 2 (10005 / 100), flatBar 3 (10015 / 100)]

/-- C4 counterexample: running the hybrid engine over the S2 scenario, the V1
long fires at 100.00, the 100.05 bar emits nothing (the claim agrees), and the
100.15 bar — where the claim expects a Long signal — also emits nothing: the
edge-trigger flag stays latched from the first firing. -/
theorem C4_min_move_counterexample :
    ((PeachHybridEngine.new peachS2Config).runBars peachS2Bars).2 =
      [none, some ⟨.long, "v1-long", some "v1"⟩, none, none] := by
  norm_num [PeachHybridEngine.runBars, PeachHybridEngine.update,
    PeachHybridEngine.new, PeachHybridEngine.checkV1System,
    PeachHybridEngine.checkV2System, peachS2Config, peachS2Bars, flatBar,
    EMA.new, EMA.update, RSI.new, RSI.update, RSI.smooth, RSI.result,
    ADX.new, ADX.update, ADX.stepAdx]

/-- C4 amended: once a V1 long has fired, `v1LastLongLook` stays latched, so a
later bar that still satisfies the long-look conditions (in particular one
whose EMA stack has `emaFast > emaMid`) emits no V1 signal regardless of the
price move — the engine is edge-triggered and needs `longLook` to drop first.
This is why the 100.15 bar of the S2 scenario emits nothing. -/
theorem C4_no_retrigger_while_longLook (e : PeachHybridEngine)
    (price emaFast emaMid emaSlow emaMicroFast emaMicroSlow rsi : ℚ)
    (hlast : e.v1LastLongLook = true) (hstack : emaMid < emaFast) :
    (e.checkV1System price emaFast emaMid emaSlow emaMicroFast emaMicroSlow
      (some rsi)).2 = none := by
  have hnb : ¬ (emaFast < emaMid) := not_lt_of_gt hstack
  simp only [PeachHybridEngine.checkV1System, hlast, hnb]
  repeat' split
  all_goals simp_all

/-- C4 amended-claim witness: a latched engine with a bull stack and a large
price move still emits nothing. -/
theorem C4_no_retrigger_while_longLook_witness :
    (({ PeachHybridEngine.new peachS2Config with
          v1LastLongLook := true }).v1LastLongLook = true ∧ (3 : ℚ) < 4) ∧
      (({ PeachHybridEngine.new peachS2Config with
          v1LastLongLook := true }).checkV1System 100 4 3 2 2 1 (some 60)).2 = none :=
  ⟨⟨rfl, by norm_num⟩,
    C4_no_retrigger_while_longLook _ 100 4 3 2 2 1 60 rfl (by norm_num)⟩

/-! ## Reconciliation override rule 1 (C8) -/

/-- C8: for every non-flat local position, a polled snapshot that parses flat
(`positionAmt = "0"`) makes `updateFromRest` overwrite the local state to
flat, reset the reconciliation-failure counter and return `true`; consumed
through the orchestrator's position handler the reconciled flat snapshot
additionally clears any pending order and flattens the orchestrator's
position view. -/
theorem C8_flat_override (m : PositionStateManager) (s : BotRunner)
    (ep up now : ℚ)
    (hm : m.state.side ≠ .flat) (hs : s.stateMgr.state.side ≠ .flat) :
    (m.updateFromRest ⟨0, ep, up⟩ now =
        ({ state := { m.state with size := 0, side := .flat, avgEntry := ep,
                                   unrealizedPnl := up, lastUpdate := now }
           reconciliationFailures := 0 }, true)) ∧
      ((s.onRestPosition ⟨0, ep, up⟩ now).stateMgr.state.side = .flat ∧
        (s.onRestPosition ⟨0, ep, up⟩ now).stateMgr.state.size = 0 ∧
        (s.onRestPosition ⟨0, ep, up⟩ now).stateMgr.reconciliationFailures = 0 ∧
        (s.onRestPosition ⟨0, ep, up⟩ now).stateMgr.state.pendingOrder = none ∧
        (s.onRestPosition ⟨0, ep, up⟩ now).position.side = .flat) := by
  have key : ∀ (m' : PositionStateManager), m'.state.side ≠ .flat →
      m'.updateFromRest ⟨0, ep, up⟩ now =
        ({ state := { m'.state with size := 0, side := .flat, avgEntry := ep,
                                    unrealizedPnl := up, lastUpdate := now }
           reconciliationFailures := 0 }, true) := by
    intro m' hm'
    have hm'' : ¬(PosSide.flat = m'.state.side) := fun h => hm' h.symm
    simp [PositionStateManager.updateFromRest, PositionStateManager.reconcile,
      hm', hm'']
  refine ⟨key m hm, ?_⟩
  simp [BotRunner.onRestPosition, key s.stateMgr hs,
    PositionStateManager.clearPendingOrder]

/-- C8 witness: a local Long of size 100 against a flat snapshot. -/
theorem C8_flat_override_witness :
    (({ state := { size := 100, side := .long, avgEntry := 50, unrealizedPnl := 3,
                   lastUpdate := 1, pendingOrder := some ⟨.long, 100, 1⟩ }
        reconciliationFailures := 1 } : PositionStateManager).state.side ≠ .flat) ∧
      (({ state := { size := 100, side := .long, avgEntry := 50, unrealizedPnl := 3,
                     lastUpdate := 1, pendingOrder := some ⟨.long, 100, 1⟩ }
          reconciliationFailures := 1 } : PositionStateManager).updateFromRest
          ⟨0, 0, 0⟩ 99).2 = true := by
  constructor
  · simp
  · rw [(C8_flat_override
      { state := { size := 100, side := .long, avgEntry := 50, unrealizedPnl := 3,
                   lastUpdate := 1, pendingOrder := some ⟨.long, 100, 1⟩ }
        reconciliationFailures := 1 }
      { BotRunner.new peachS2Config
          { maxPositionSize := 100, maxLeverage := 5, maxFlipsPerHour := 2
            stopLossPct := none, takeProfitPct := none, useStopLoss := false
            emergencyStopLoss := some 1, positionSizePct := none
            requireTrendingMarket := false, adxThreshold := 25 } true with
        stateMgr :=
          { state := { size := 100, side := .long, avgEntry := 50, unrealizedPnl := 3,
                       lastUpdate := 1, pendingOrder := some ⟨.long, 100, 1⟩ }
            reconciliationFailures := 1 } }
      0 0 99 (by simp) (by simp)).1]

/-! ## Flip budget (C7)

The entry path of `applySignal` interacts with the flip budget exactly
through `canFlipCore` (the body of `BotRunner.canFlip`, which filters the
stored history in place) and `recordFlip` (append on successful entry,
possibly skipped when `enterPosition` aborts).  `FlipTrace` models this
protocol: each attempt carries its timestamp (the closed bar's `endTime`,
strictly increasing across `applySignal` calls thanks to the monotonic gate)
and whether the entry went through. -/

structure FlipTrace where
  flipHistory : List ℚ
  entries : List ℚ
deriving Repr, DecidableEq

def flipAttempt (maxFlipsPerHour : ℕ) (st : FlipTrace) (a : ℚ × Bool) :
    FlipTrace :=
  let r := canFlipCore maxFlipsPerHour st.flipHistory a.1
  if r.2 && a.2 then ⟨r.1 ++ [a.1], st.entries ++ [a.1]⟩
  else ⟨r.1, st.entries⟩

def runFlipAttempts (maxFlipsPerHour : ℕ) (st : FlipTrace)
    (attempts : List (ℚ × Bool)) : FlipTrace :=
  attempts.foldl (flipAttempt maxFlipsPerHour) st

/-- Number of entries recorded inside the closed one-hour window starting
at `w`. -/
def windowCount (w : ℚ) (l : List ℚ) : ℕ :=
  (l.filter (fun t => decide (w ≤ t ∧ t ≤ w + HOUR_MS))).length

theorem canFlipCore_fst (maxF : ℕ) (h : List ℚ) (ts : ℚ) :
    (canFlipCore maxF h ts).1 = h.filter (fun t => decide (ts - HOUR_MS ≤ t)) :=
  rfl

theorem canFlipCore_snd (maxF : ℕ) (h : List ℚ) (ts : ℚ) :
    (canFlipCore maxF h ts).2 =
      decide ((h.filter (fun t => decide (ts - HOUR_MS ≤ t))).length < maxF) :=
  rfl

/-- Re-filtering with a later cutoff collapses to the later filter alone. -/
theorem filter_cutoff_trans (entries : List ℚ) (c1 c2 : ℚ) (h : c1 ≤ c2) :
    (entries.filter (fun t => decide (c1 ≤ t))).filter
        (fun t => decide (c2 ≤ t)) =
      entries.filter (fun t => decide (c2 ≤ t)) := by
  rw [List.filter_filter]
  apply List.filter_congr
  intro a _
  by_cases hc : c2 ≤ a
  · have : c1 ≤ a := le_trans h hc
    simp [hc, this]
  · simp [hc]

/-- Induction kernel for the flip budget: with attempt timestamps sorted and
at least `lastT`, a state whose stored history is exactly the entries within
one hour of `lastT`, whose entries are all at most `lastT`, and whose every
one-hour window already holds at most `maxF` entries, keeps the window bound
through any further attempts. -/
theorem runFlipAttempts_window_bound (maxF : ℕ) (attempts : List (ℚ × Bool)) :
    ∀ (st : FlipTrace) (lastT : ℚ),
      (∀ a ∈ attempts, lastT ≤ a.1) →
      attempts.Pairwise (fun a b => a.1 ≤ b.1) →
      st.flipHistory = st.entries.filter (fun t => decide (lastT - HOUR_MS ≤ t)) →
      (∀ e ∈ st.entries, e ≤ lastT) →
      (∀ w, windowCount w st.entries ≤ maxF) →
      ∀ w, windowCount w (runFlipAttempts maxF st attempts).entries ≤ maxF := by
  induction attempts with
  | nil => intro st lastT _ _ _ _ hwin w; exact hwin w
  | cons a rest ih =>
      intro st lastT hall hpw hinv hbound hwin
      obtain ⟨T, ok⟩ := a
      have hTle : lastT ≤ T := hall (T, ok) (List.mem_cons_self _ _)
      have hall' : ∀ b ∈ rest, T ≤ b.1 := (List.pairwise_cons.mp hpw).1
      have hpw' := (List.pairwise_cons.mp hpw).2
      have hcut : T - HOUR_MS ≤ T := by norm_num [HOUR_MS]
      have hfilters : st.flipHistory.filter (fun t => decide (T - HOUR_MS ≤ t)) =
          st.entries.filter (fun t => decide (T - HOUR_MS ≤ t)) := by
        rw [hinv]
        exact filter_cutoff_trans _ _ _ (by linarith)
      show ∀ w, windowCount w
        (runFlipAttempts maxF (flipAttempt maxF st (T, ok)) rest).entries ≤ maxF
      simp only [flipAttempt]
      split
      · -- the entry went through: the budget guard held
        rename_i hok
        simp only [Bool.and_eq_true] at hok
        have hguard : (st.entries.filter
            (fun t => decide (T - HOUR_MS ≤ t))).length < maxF := by
          have := hok.1
          rw [canFlipCore_snd, hfilters] at this
          exact of_decide_eq_true this
        apply ih _ T hall' hpw'
        · -- stored history = entries within one hour of T
          show (canFlipCore maxF st.flipHistory T).1 ++ [T] =
            (st.entries ++ [T]).filter (fun t => decide (T - HOUR_MS ≤ t))
          rw [canFlipCore_fst, hfilters, List.filter_append]
          simp [List.filter_cons, hcut]
          norm_num [HOUR_MS]
        · intro e he
          rcases List.mem_append.mp he with he | he
          · exact le_trans (hbound e he) hTle
          · simp only [List.mem_singleton] at he
            subst he
            exact le_refl _
        · intro w
          unfold windowCount
          rw [List.filter_append, List.length_append]
          by_cases hTw : w ≤ T ∧ T ≤ w + HOUR_MS
          · have hsub : List.Sublist
                (st.entries.filter (fun t => decide (w ≤ t ∧ t ≤ w + HOUR_MS)))
                (st.entries.filter (fun t => decide (T - HOUR_MS ≤ t))) := by
              apply List.monotone_filter_right
              intro x hx
              have hx' := of_decide_eq_true hx
              exact decide_eq_true (by linarith [hx'.1, hx'.2, hTw.2])
            have h1 : (st.entries.filter
                (fun t => decide (w ≤ t ∧ t ≤ w + HOUR_MS))).length < maxF :=
              lt_of_le_of_lt hsub.length_le hguard
            have h2 : (([T]).filter
                (fun t => decide (w ≤ t ∧ t ≤ w + HOUR_MS))).length ≤ 1 := by
              simp [List.filter]
              split <;> simp
            omega
          · have h2 : (([T]).filter
                (fun t => decide (w ≤ t ∧ t ≤ w + HOUR_MS))).length = 0 := by
              simp [List.filter, hTw]
            rw [h2]
            have := hwin w
            unfold windowCount at this
            omega
      · -- rejected attempt (or failed entry): only the stored history shrinks
        apply ih _ T hall' hpw'
        · show (canFlipCore maxF st.flipHistory T).1 =
            st.entries.filter (fun t => decide (T - HOUR_MS ≤ t))
          rw [canFlipCore_fst, hfilters]
        · exact fun e he => le_trans (hbound e he) hTle
        · exact hwin

/-- C7: in every execution of the entry protocol (attempts with
non-decreasing timestamps, the budget consulted through `canFlipCore` and a
timestamp appended only on successful entry), every one-hour sliding window
holds at most `maxFlipsPerHour` recorded entries. -/
theorem C7_flip_budget_window (maxFlipsPerHour : ℕ)
    (attempts : List (ℚ × Bool))
    (hmono : attempts.Pairwise (fun a b => a.1 ≤ b.1)) :
    ∀ w, windowCount w
      (runFlipAttempts maxFlipsPerHour ⟨[], []⟩ attempts).entries
        ≤ maxFlipsPerHour := by
  cases attempts with
  | nil =>
      intro w
      simp [runFlipAttempts, windowCount]
  | cons a rest =>
      apply runFlipAttempts_window_bound maxFlipsPerHour (a :: rest) ⟨[], []⟩ a.1
      · intro b hb
        rcases List.mem_cons.mp hb with rfl | hb
        · exact le_refl _
        · exact (List.pairwise_cons.mp hmono).1 b hb
      · exact hmono
      · simp
      · simp
      · intro w
        simp [windowCount]

/-- C7 witness: the S5 scenario.  With `maxFlipsPerHour = 2` and successful
entries at `t = 0` and `t + 10 min`, the attempt at `t + 20 min` is rejected
by `canFlipCore` (the "Flip budget exhausted" branch), only two entries are
recorded, and the window starting at `t` holds exactly them. -/
theorem C7_flip_budget_window_witness :
    (List.Pairwise (fun (a b : ℚ × Bool) => a.1 ≤ b.1)
        [((0 : ℚ), true), (600000, true), (1200000, true)] ∧
      (runFlipAttempts 2 ⟨[], []⟩
          [((0 : ℚ), true), (600000, true), (1200000, true)]).entries
        = [0, 600000] ∧
      (canFlipCore 2 [0, 600000] 1200000).2 = false) ∧
      windowCount 0
        (runFlipAttempts 2 ⟨[], []⟩
          [((0 : ℚ), true), (600000, true), (1200000, true)]).entries ≤ 2 := by
  refine ⟨⟨?_, ?_, ?_⟩, ?_⟩
  · norm_num [List.pairwise_cons]
  · norm_num [runFlipAttempts, flipAttempt, canFlipCore, HOUR_MS]
  · norm_num [canFlipCore, HOUR_MS]
  · exact C7_flip_budget_window 2 [((0 : ℚ), true), (600000, true), (1200000, true)]
      (by norm_num [List.pairwise_cons]) 0

/-! ## Stale bar close (C6) -/

def demoRisk : RiskConfig :=
  { maxPositionSize := 100, maxLeverage := 5, maxFlipsPerHour := 10
    stopLossPct := none, takeProfitPct := none, useStopLoss := false
    emergencyStopLoss := some 1, positionSizePct := none
    requireTrendingMarket := false, adxThreshold := 25 }

/-- Orchestrator state holding a Long position entered at 100 with trailing
high 100, after twenty processed bars (warm-state reload leaves exactly such
states facing re-fed ticks). -/
def botC6 : BotRunner :=
  { BotRunner.new peachS2Config demoRisk true with
    position := ⟨.long, 100, some 100, some 0⟩
    highestPrice := some 100
    lastBarCloseTime := 600000
    barCount := 20
    positionOpenedAt := 12
    engine := (PeachHybridEngine.new peachS2Config).setPosition .long }

/-- Closed bar whose `endTime` (300000) predates the last processed bar close
(600000). -/
def staleBarC6 : SyntheticBar :=
  { startTime := 270000, endTime := 300000, openPrice := 120, high := 120
    low := 120, close := 120, volume := 10 }

/-- C6 counterexample: a closed bar with `endTime ≤ lastBarCloseTime` is NOT a
no-op — `evaluateProtectiveExits` runs before the monotonic gate, so the stale
bar still updates the trailing extremum (here `highestPrice` moves from 100 to
120, and with a lower close it could even fire a protective exit). -/
theorem C6_stale_bar_counterexample :
    staleBarC6.endTime ≤ botC6.lastBarCloseTime ∧
      botC6.highestPrice = some 100 ∧
      (botC6.onClosedBar staleBarC6).highestPrice = some 120 := by
  have hprot : botC6.evaluateProtectiveExits staleBarC6 =
      { botC6 with highestPrice := some 120 } := by
    norm_num [BotRunner.evaluateProtectiveExits, BotRunner.updateExtrema,
      BotRunner.trailingExitNow, BotRunner.emergencyExitNow,
      BotRunner.stopExitNow, BotRunner.takeProfitExitNow,
      BotRunner.closePosition, botC6, staleBarC6, BotRunner.new, demoRisk]
    split_ifs <;> simp_all
  have hstale : ({ botC6 with highestPrice := some 120 } : BotRunner).handleBarClose
      staleBarC6 staleBarC6.endTime = { botC6 with highestPrice := some 120 } := by
    simp only [BotRunner.handleBarClose]
    rw [if_pos (by norm_num [botC6, staleBarC6, BotRunner.new])]
  refine ⟨by norm_num [staleBarC6, botC6, BotRunner.new],
    by norm_num [botC6, BotRunner.new], ?_⟩
  unfold BotRunner.onClosedBar
  rw [hprot, hstale]

/-- C6 amended: a closed bar with `endTime ≤ lastBarCloseTime` makes
`handleBarClose` a strict no-op (no counter change, no engine update, no
signal, no position change), and when the position is flat the whole
closed-bar pipeline — protective exits included — leaves the orchestrator
unchanged; with an open position, however, the protective-exit pass still
runs before the monotonic gate and may update trailing extrema or close the
position. -/
theorem C6_stale_bar_amended :
    (∀ (s : BotRunner) (bar : SyntheticBar) (now : ℚ),
        bar.endTime ≤ s.lastBarCloseTime → s.handleBarClose bar now = s) ∧
      (∀ (s : BotRunner) (bar : SyntheticBar),
        s.position.side = .flat → bar.endTime ≤ s.lastBarCloseTime →
        s.onClosedBar bar = s) := by
  have h1 : ∀ (s : BotRunner) (bar : SyntheticBar) (now : ℚ),
      bar.endTime ≤ s.lastBarCloseTime → s.handleBarClose bar now = s := by
    intro s bar now h
    simp only [BotRunner.handleBarClose, if_pos h]
  refine ⟨h1, ?_⟩
  intro s bar hflat h
  unfold BotRunner.onClosedBar
  have hprot : s.evaluateProtectiveExits bar = s := by
    unfold BotRunner.evaluateProtectiveExits
    rw [if_pos hflat]
  rw [hprot]
  exact h1 s bar bar.endTime h

/-- C6 amended-claim witness: a flat orchestrator state ignores a stale bar
completely. -/
theorem C6_stale_bar_amended_witness :
    (staleBarC6.endTime ≤ ({ BotRunner.new peachS2Config demoRisk true with
        lastBarCloseTime := 600000 } : BotRunner).lastBarCloseTime ∧
      ({ BotRunner.new peachS2Config demoRisk true with
        lastBarCloseTime := 600000 } : BotRunner).position.side = .flat) ∧
      ({ BotRunner.new peachS2Config demoRisk true with
        lastBarCloseTime := 600000 } : BotRunner).onClosedBar staleBarC6 =
        { BotRunner.new peachS2Config demoRisk true with
          lastBarCloseTime := 600000 } := by
  refine ⟨⟨by norm_num [staleBarC6, BotRunner.new], by norm_num [BotRunner.new]⟩, ?_⟩
  exact C6_stale_bar_amended.2 _ staleBarC6 (by norm_num [BotRunner.new])
    (by norm_num [staleBarC6, BotRunner.new])


/-! ## Minimum hold between entries (C5) -/

/-- Constructor-inequality rewrites for the enum types, packaged for the
concrete evaluations (`simp` does not reduce these equalities on its own). -/
theorem sideCtorEqFalse :
    ((PosSide.flat = PosSide.long) = False) ∧
      ((PosSide.flat = PosSide.short) = False) ∧
      ((PosSide.long = PosSide.flat) = False) ∧
      ((PosSide.long = PosSide.short) = False) ∧
      ((PosSide.short = PosSide.flat) = False) ∧
      ((PosSide.short = PosSide.long) = False) ∧
      ((SigType.long = SigType.short) = False) ∧
      ((SigType.short = SigType.long) = False) :=
  ⟨eq_false (by decide), eq_false (by decide), eq_false (by decide),
    eq_false (by decide), eq_false (by decide), eq_false (by decide),
    eq_false (by decide), eq_false (by decide)⟩

/-- Ghost spacing relation between consecutive logged entries: a flip entry
opens at least `MIN_HOLD_BARS` bars after the previous entry was opened. -/
def entrySpacing (e1 e2 : EntryEvent) : Prop :=
  e2.wasFlip = true → e1.barCount + MIN_HOLD_BARS ≤ e2.barCount

/-- Invariant carrying the minimum-hold argument: the ghost entry log is
`entrySpacing`-chained, and its last element (if any) entered at the bar the
current `positionOpenedAt` records. -/
def BotRunner.GhostInv (s : BotRunner) : Prop :=
  List.Chain' entrySpacing s.entryLog ∧
    (s.entryLog = [] ∨
      s.entryLog.getLast?.map EntryEvent.barCount = some s.positionOpenedAt)

theorem BotRunner.GhostInv.of_eq (t u : BotRunner) (h : u.GhostInv)
    (he : t.entryLog = u.entryLog)
    (hp : t.positionOpenedAt = u.positionOpenedAt) : t.GhostInv := by
  unfold BotRunner.GhostInv at h ⊢
  rw [he, hp]
  exact h

/-- `closePosition` never touches the ghost fields. -/
theorem BotRunner.closePosition_ghost (s : BotRunner) (r : String) :
    (s.closePosition r).entryLog = s.entryLog ∧
      (s.closePosition r).positionOpenedAt = s.positionOpenedAt ∧
      (s.closePosition r).barCount = s.barCount := by
  unfold BotRunner.closePosition
  split <;> exact ⟨rfl, rfl, rfl⟩

/-- The extremum update never touches the ghost fields. -/
theorem BotRunner.updateExtrema_ghost (s : BotRunner) (close : ℚ) :
    (s.updateExtrema close).entryLog = s.entryLog ∧
      (s.updateExtrema close).positionOpenedAt = s.positionOpenedAt ∧
      (s.updateExtrema close).barCount = s.barCount := by
  simp only [BotRunner.updateExtrema]
  repeat' split
  all_goals exact ⟨rfl, rfl, rfl⟩

/-- The protective-exit pass never touches the ghost fields. -/
theorem BotRunner.evaluateProtectiveExits_ghost (s : BotRunner)
    (bar : SyntheticBar) :
    (s.evaluateProtectiveExits bar).entryLog = s.entryLog ∧
      (s.evaluateProtectiveExits bar).positionOpenedAt = s.positionOpenedAt ∧
      (s.evaluateProtectiveExits bar).barCount = s.barCount := by
  simp only [BotRunner.evaluateProtectiveExits]
  repeat' split
  all_goals first
    | exact ⟨rfl, rfl, rfl⟩
    | exact BotRunner.updateExtrema_ghost _ _
    | exact ⟨(BotRunner.closePosition_ghost _ _).1.trans
          (BotRunner.updateExtrema_ghost _ _).1,
        (BotRunner.closePosition_ghost _ _).2.1.trans
          (BotRunner.updateExtrema_ghost _ _).2.1,
        (BotRunner.closePosition_ghost _ _).2.2.trans
          (BotRunner.updateExtrema_ghost _ _).2.2⟩

/-- A successful `enterPosition` appends one ghost entry and stamps
`positionOpenedAt`; the invariant survives provided a flip entry respects the
minimum hold against the state it enters from. -/
theorem BotRunner.enterPosition_inv (s : BotRunner) (side : SigType)
    (order : TradeInstruction) (wf : Bool) (h : s.GhostInv)
    (hflip : wf = true → s.positionOpenedAt + MIN_HOLD_BARS ≤ s.barCount) :
    (s.enterPosition side order wf).GhostInv := by
  simp only [BotRunner.enterPosition]
  split
  · exact h
  · refine ⟨?_, ?_⟩
    · show List.Chain' entrySpacing
        (s.entryLog ++ [⟨s.barCount, s.positionOpenedAt, wf, order.timestamp⟩])
      apply List.Chain'.append h.1 (List.chain'_singleton _)
      intro x hx y hy
      simp only [List.head?_cons, Option.mem_def, Option.some.injEq] at hy
      subst hy
      intro hwf
      rcases h.2 with hnil | hlast
      · rw [hnil] at hx
        simp at hx
      · have hxb : x.barCount = s.positionOpenedAt := by
          rw [Option.mem_def] at hx
          rw [hx] at hlast
          simpa using hlast
        rw [hxb]
        exact hflip hwf
    · right
      show (s.entryLog ++
          [(⟨s.barCount, s.positionOpenedAt, wf, order.timestamp⟩ :
            EntryEvent)]).getLast?.map EntryEvent.barCount = some s.barCount
      rw [List.getLast?_concat]
      rfl

/-- `applySignal` preserves the ghost invariant: the only entry paths are the
fresh entry (not a flip) and the flip path, which is guarded by the
minimum-hold check. -/
theorem BotRunner.applySignal_inv (s : BotRunner) (sig : StrategySignal)
    (bar : SyntheticBar) (h : s.GhostInv) :
    (s.applySignal sig bar).GhostInv := by
  simp only [BotRunner.applySignal, BotRunner.canFlip, canFlipCore]
  repeat' split
  all_goals first
    | exact h
    | exact BotRunner.enterPosition_inv _ _ _ _ h
        (fun hw => absurd hw (by decide))
    | (refine BotRunner.enterPosition_inv _ _ _ _
        (BotRunner.GhostInv.of_eq _ _ h (BotRunner.closePosition_ghost _ _).1
          (BotRunner.closePosition_ghost _ _).2.1) ?_
       intro _
       rw [(BotRunner.closePosition_ghost _ _).2.1,
         (BotRunner.closePosition_ghost _ _).2.2]
       simp only [MIN_HOLD_BARS] at *
       omega)

theorem BotRunner.handleBarCloseCore_inv (s : BotRunner) (bar : SyntheticBar)
    (h : s.GhostInv) : (s.handleBarCloseCore bar).GhostInv := by
  simp only [BotRunner.handleBarCloseCore]
  repeat' split
  all_goals first
    | exact h
    | exact BotRunner.GhostInv.of_eq _ _ h (BotRunner.closePosition_ghost _ _).1
        (BotRunner.closePosition_ghost _ _).2.1
    | exact BotRunner.applySignal_inv _ _ _ h

theorem BotRunner.handleBarClose_inv (s : BotRunner) (bar : SyntheticBar)
    (now : ℚ) (h : s.GhostInv) : (s.handleBarClose bar now).GhostInv := by
  simp only [BotRunner.handleBarClose]
  repeat' split
  all_goals first
    | exact h
    | exact BotRunner.handleBarCloseCore_inv _ _ h

theorem BotRunner.onClosedBar_inv (s : BotRunner) (bar : SyntheticBar)
    (h : s.GhostInv) : (s.onClosedBar bar).GhostInv := by
  unfold BotRunner.onClosedBar
  exact BotRunner.handleBarClose_inv _ _ _
    (BotRunner.GhostInv.of_eq _ _ h
      (BotRunner.evaluateProtectiveExits_ghost _ _).1
      (BotRunner.evaluateProtectiveExits_ghost _ _).2.1)

theorem BotRunner.runBars_inv (s : BotRunner) (bars : List SyntheticBar)
    (h : s.GhostInv) : (s.runBars bars).GhostInv := by
  induction bars generalizing s with
  | nil => exact h
  | cons b bs ih => exact ih (s.onClosedBar b) (BotRunner.onClosedBar_inv s b h)

/-- C5 scenario config: the S2 strategy with the engine-side spacing and
min-move gates disabled, so the engine signals freely and only the
orchestrator's own hold logic is in play. -/
def cfgC5 : PeachConfig :=
  { peachS2Config with
    v1 := { peachS2Config.v1 with minBarsBetween := 0, minMovePercent := 0 } }

/-- Eleven warmup-filling flat bars, then 110 (long entry), 100 (emergency
stop exits the long), 120 (fresh long entry two bars after the first). -/
def barsC5 : List SyntheticBar :=
  [flatBar 0 100, flatBar 1 100, flatBar 2 100, flatBar 3 100, flatBar 4 100,
   flatBar 5 100, flatBar 6 100, flatBar 7 100, flatBar 8 100, flatBar 9 100,
   flatBar 10 100, flatBar 11 110, flatBar 12 100, flatBar 13 120]

set_option maxHeartbeats 4000000 in
/-- C5 counterexample: the cold-started orchestrator run over `barsC5` logs
two successful entries, at `barCount` 12 and 14 — both after warmup and only
two bars apart, far below `MIN_HOLD_BARS`.  The minimum hold does not bind
these consecutive entries: the emergency stop closed the first position, and
a fresh entry from flat skips the hold check entirely. -/
theorem C5_min_hold_counterexample :
    ((BotRunner.new cfgC5 demoRisk true).runBars barsC5).entryLog.map
        EntryEvent.barCount = [12, 14] ∧
      WARMUP_BARS < 12 ∧ 14 < 12 + MIN_HOLD_BARS := by
  refine ⟨?_, by norm_num [WARMUP_BARS], by norm_num [MIN_HOLD_BARS]⟩
  norm_num [BotRunner.runBars, BotRunner.onClosedBar, BotRunner.handleBarClose,
    BotRunner.handleBarCloseCore, BotRunner.applySignal, BotRunner.enterPosition,
    BotRunner.closePosition, BotRunner.evaluateProtectiveExits,
    BotRunner.updateExtrema, BotRunner.trailingExitNow,
    BotRunner.emergencyExitNow, BotRunner.stopExitNow,
    BotRunner.takeProfitExitNow, BotRunner.canFlip,
    canFlipCore, BotRunner.recordFlip, sigToPos, BotRunner.new,
    PositionStateManager.new, PositionStateManager.setPendingOrder,
    PositionStateManager.updateLocalState, WARMUP_BARS, MIN_HOLD_BARS, HOUR_MS,
    cfgC5, peachS2Config, demoRisk, barsC5, flatBar, sideCtorEqFalse,
    PeachHybridEngine.new, PeachHybridEngine.update, PeachHybridEngine.setPosition,
    PeachHybridEngine.checkV1System, PeachHybridEngine.checkV2System,
    PeachHybridEngine.checkExitConditions, EMA.new, EMA.update, RSI.new,
    RSI.update, RSI.smooth, RSI.result, ADX.new, ADX.update, ADX.stepAdx,
    List.filter_cons]

/-- C5 amended: the minimum-hold spacing holds only between an entry and a
subsequent FLIP entry.  Over any bar stream from a cold start, consecutive
ghost-logged entries `e1, e2` satisfy `e1.barCount + MIN_HOLD_BARS ≤
e2.barCount` whenever `e2` is a flip; a fresh entry from flat (e.g. after a
protective exit) is not so spaced. -/
theorem C5_min_hold_flips_only (cfg : PeachConfig) (risk : RiskConfig)
    (dryRun : Bool) (bars : List SyntheticBar) :
    List.Chain' entrySpacing
      ((BotRunner.new cfg risk dryRun).runBars bars).entryLog :=
  (BotRunner.runBars_inv _ bars ⟨List.chain'_nil, Or.inl rfl⟩).1

end AesterDex
